import Mathlib

/-!
# Durable-stream worker (package `worker`)

A shallow embedding of `worker/worker.go`, `worker/options.go` and
`worker/errors.go`.

* Go `error` values are the inductive `Error`; the package's sentinel errors and
  the `nats` sentinels the code compares against are constructors, `errors.Is`
  is `errorsIs`.
* The broker client (`*nats.Conn`, `nats.JetStreamContext`) is external: it is a
  record `Broker β` of answer functions over an arbitrary broker state `β`, and
  `New` threads that state and records every call it makes in a trace.
* A `Handler` is a Go closure: a function over an arbitrary handler state `σ`.
  A nil handler is `none`.
* `time.Duration` is an `Int` of nanoseconds, Go `int` is `Int` (the code does no
  arithmetic on either).
* Loggers and options are taken non-nil (a logger is an identifier, an option a
  function on `config`); log lines are events of the trace.
* A dispatch loop runs against a script of answers of the outside, one per turn:
  whether the context is cancelled, and what the fetch returns. Under `Run` the
  context is cancelled by a delivered signal only (`ctxOf`).
-/

namespace worker

/-! ## Errors -/

/-- Go error values: the five sentinels of `errors.go`, the `nats` and `context`
sentinels the worker meets, any other error, and an error wrapping another. -/
inductive Error where
  | ErrInvalidHandler
  | ErrStreamNotFound
  | ErrConsumerNotFound
  | ErrStreamNameRequired
  | ErrSubjectRequired
  | natsErrStreamNotFound
  | natsErrConsumerNotFound
  | natsErrConsumerNameAlreadyInUse
  | natsErrTimeout
  | natsErrBadSubscription
  | contextCanceled
  | other (text : String)
  | wrap (text : String) (inner : Error)
  deriving DecidableEq, Repr

open Error

/-- The text given to `errors.New` in `errors.go`. -/
def Error.text : Error → String
  | ErrInvalidHandler => "handler is nil"
  | ErrStreamNotFound => "stream not found"
  | ErrConsumerNotFound => "consumer not found"
  | ErrStreamNameRequired => "stream name required"
  | ErrSubjectRequired => "subject required"
  | natsErrStreamNotFound => "nats: stream not found"
  | natsErrConsumerNotFound => "nats: consumer not found"
  | natsErrConsumerNameAlreadyInUse => "nats: consumer name already in use"
  | natsErrTimeout => "nats: timeout"
  | natsErrBadSubscription => "nats: invalid subscription"
  | contextCanceled => "context canceled"
  | other t => t
  | wrap t inner => t ++ ": " ++ inner.text

/-- Go `errors.Is`: the error or one it wraps is the target. -/
def errorsIs : Error → Error → Bool
  | wrap t inner, target => decide (wrap t inner = target) || errorsIs inner target
  | err, target => decide (err = target)

/-! ## The `nats` types the worker uses -/

inductive StorageType where
  | FileStorage
  | MemoryStorage
  deriving DecidableEq, Repr

inductive AckPolicy where
  | AckNonePolicy
  | AckAllPolicy
  | AckExplicitPolicy
  deriving DecidableEq, Repr

inductive DeliverPolicy where
  | DeliverAllPolicy
  | DeliverLastPolicy
  | DeliverNewPolicy
  | DeliverByStartSequencePolicy
  | DeliverByStartTimePolicy
  | DeliverLastPerSubjectPolicy
  deriving DecidableEq, Repr

inductive ReplayPolicy where
  | ReplayInstantPolicy
  | ReplayOriginalPolicy
  deriving DecidableEq, Repr

/-- The fields of `nats.StreamConfig` that `New` sets. -/
structure StreamConfig where
  Name : String
  Subjects : List String
  Storage : StorageType
  deriving DecidableEq, Repr

/-- The fields of `nats.ConsumerConfig` that `New` sets. -/
structure ConsumerConfig where
  Durable : String
  AckPolicy : AckPolicy
  AckWait : Int
  MaxDeliver : Int
  FilterSubject : String
  DeliverPolicy : DeliverPolicy
  ReplayPolicy : ReplayPolicy
  deriving DecidableEq, Repr

/-- A message `*nats.Msg`: subject and payload bytes. -/
structure Msg where
  Subject : String
  Data : List UInt8
  deriving DecidableEq, Repr

/-- A handle `nats.JetStreamContext`. -/
structure JetStreamContext where
  id : Nat
  deriving DecidableEq, Repr

/-- A handle `*nats.Subscription`: the subject, consumer and stream it is bound to. -/
structure Subscription where
  subject : String
  consumer : String
  stream : String
  deriving DecidableEq, Repr

/-- A handle `*slog.Logger`. -/
structure Logger where
  id : Nat
  deriving DecidableEq, Repr

/-- The logger `slog.Default()`. -/
def slogDefault : Logger := ⟨0⟩

/-- One `time.Second`, in nanoseconds. -/
def Second : Int := 1000000000

/-! ## The broker, as the worker sees it -/

/-- The answers of the broker client over a broker state `β`: each operation
returns its Go result and the state after the call. -/
structure Broker (β : Type) where
  JetStream : β → Except Error JetStreamContext × β
  StreamInfo : String → β → Option Error × β
  AddStream : StreamConfig → β → Option Error × β
  AddConsumer : String → ConsumerConfig → β → Option Error × β
  PullSubscribe : String → String → String → β → Except Error Subscription × β
  Drain : Subscription → β → Option Error × β

/-- What `New` does to the outside, in the order it does it. -/
inductive Call where
  | JetStream
  | StreamInfo (name : String)
  | AddStream (cfg : StreamConfig)
  | AddConsumer (stream : String) (cfg : ConsumerConfig)
  | PullSubscribe (subject : String) (durable : String) (bindStream : String)
  | LogInfo (log : Logger) (msg : String) (key : String) (value : String)
  deriving DecidableEq, Repr

/-! ## `options.go` -/

/-- The type `Handler func(context.Context, *nats.Msg) error`, a closure over a
state `σ`; `none` in the result is the nil error. -/
abbrev Handler (σ : Type) := σ → Msg → Option Error × σ

structure config (σ : Type) where
  streamName : String
  consumerName : String
  durableName : String
  handler : Option (Handler σ)
  concurrency : Int
  ackWait : Int
  maxDeliver : Int
  filterSubject : String
  deliverPolicy : DeliverPolicy
  replayPolicy : ReplayPolicy
  log : Logger
  storage : StorageType

/-- The type `Option func(*config)` of `options.go`. -/
abbrev WorkerOption (σ : Type) := config σ → config σ

def WithStream {σ : Type} (name : String) : WorkerOption σ :=
  fun c => { c with streamName := name }

def WithConsumer {σ : Type} (consumer subject : String) : WorkerOption σ :=
  fun c => { c with consumerName := consumer, filterSubject := subject }

def WithDurable {σ : Type} (name : String) : WorkerOption σ :=
  fun c => { c with durableName := name }

/-- The argument is the Go func value: `none` is `WithHandler(nil)`. -/
def WithHandler {σ : Type} (h : Option (Handler σ)) : WorkerOption σ :=
  fun c => { c with handler := h }

def WithConcurrency {σ : Type} (n : Int) : WorkerOption σ :=
  fun c => { c with concurrency := n }

def WithAckWait {σ : Type} (d : Int) : WorkerOption σ :=
  fun c => { c with ackWait := d }

def WithMaxDeliver {σ : Type} (n : Int) : WorkerOption σ :=
  fun c => { c with maxDeliver := n }

def WithLogger {σ : Type} (l : Logger) : WorkerOption σ :=
  fun c => { c with log := l }

def WithStorage {σ : Type} (storage : StorageType) : WorkerOption σ :=
  fun c => { c with storage := storage }

/-! ## `worker.go`: `New` -/

structure Worker (σ : Type) where
  js : JetStreamContext
  sub : Option Subscription
  handler : Option (Handler σ)
  log : Logger
  concurrency : Int

/-- The config literal at the top of `New` (lines 25-33); the string fields and
the handler have their zero values. -/
def defaultConfig (σ : Type) : config σ :=
  { streamName := ""
    consumerName := ""
    durableName := ""
    handler := none
    concurrency := 1
    ackWait := 30 * Second
    maxDeliver := 1
    filterSubject := ""
    deliverPolicy := DeliverPolicy.DeliverAllPolicy
    replayPolicy := ReplayPolicy.ReplayInstantPolicy
    log := slogDefault
    storage := StorageType.FileStorage }

/-- The loop `for _, opt := range opts { opt(cfg) }` of `New` (lines 35-37), run
on the default config. -/
def applyOptions {σ : Type} (opts : List (WorkerOption σ)) : config σ :=
  opts.foldl (fun cfg opt => opt cfg) (defaultConfig σ)

/-- The two results of `New`, the broker state it leaves and the calls it made. -/
structure NewResult (σ β : Type) where
  worker : Option (Worker σ)
  err : Option Error
  broker : β
  calls : List Call

/-- The stream config `New` passes to `js.AddStream` (lines 68-72). -/
def streamConfigOf {σ : Type} (cfg : config σ) : StreamConfig :=
  { Name := cfg.streamName
    Subjects := [cfg.filterSubject ++ ".>"]
    Storage := cfg.storage }

/-- The consumer config `New` passes to `js.AddConsumer` (lines 85-93). -/
def consumerConfigOf {σ : Type} (cfg : config σ) : ConsumerConfig :=
  { Durable := cfg.durableName
    AckPolicy := AckPolicy.AckExplicitPolicy
    AckWait := cfg.ackWait
    MaxDeliver := cfg.maxDeliver
    FilterSubject := cfg.filterSubject
    DeliverPolicy := cfg.deliverPolicy
    ReplayPolicy := cfg.replayPolicy }

/-- The worker literal of `New` (lines 56-61); `sub` is still nil. -/
def workerOf {σ : Type} (cfg : config σ) (js : JetStreamContext) : Worker σ :=
  { js := js
    sub := none
    log := cfg.log
    handler := cfg.handler
    concurrency := cfg.concurrency }

/-- Lines 81-105 of `New`: default the consumer name, add the consumer, pull
subscribe, return the worker. `calls` are the calls made so far. -/
def newConsumerStep {σ β : Type} (B : Broker β) (cfg : config σ) (w : Worker σ)
    (b : β) (calls : List Call) : NewResult σ β :=
  let cfg := if cfg.consumerName = "" then { cfg with consumerName := cfg.durableName } else cfg
  let consumerCfg := consumerConfigOf cfg
  match B.AddConsumer cfg.streamName consumerCfg b with
  | (some err, b1) =>
    ⟨none, some err, b1, calls ++ [Call.AddConsumer cfg.streamName consumerCfg]⟩
  | (none, b1) =>
    match B.PullSubscribe cfg.filterSubject cfg.consumerName cfg.streamName b1 with
    | (Except.error err, b2) =>
      ⟨none, some err, b2, calls ++ [Call.AddConsumer cfg.streamName consumerCfg,
        Call.PullSubscribe cfg.filterSubject cfg.consumerName cfg.streamName]⟩
    | (Except.ok sub, b2) =>
      ⟨some { w with sub := some sub }, none, b2,
        calls ++ [Call.AddConsumer cfg.streamName consumerCfg,
          Call.PullSubscribe cfg.filterSubject cfg.consumerName cfg.streamName]⟩

/-- Lines 63-79 of `New`: look the stream up and create it when the lookup reports
not-found. Returns the error that ends construction, if any, the broker state and
the calls made. -/
def newStreamStep {σ β : Type} (B : Broker β) (cfg : config σ) (w : Worker σ) (b : β) :
    Option Error × β × List Call :=
  match B.StreamInfo cfg.streamName b with
  | (some err, b1) =>
    if errorsIs err natsErrStreamNotFound then
      match B.AddStream (streamConfigOf cfg) b1 with
      | (some err2, b2) =>
        (some err2, b2,
          [Call.StreamInfo cfg.streamName,
            Call.LogInfo w.log "creating stream" "name" cfg.streamName,
            Call.AddStream (streamConfigOf cfg)])
      | (none, b2) =>
        (none, b2,
          [Call.StreamInfo cfg.streamName,
            Call.LogInfo w.log "creating stream" "name" cfg.streamName,
            Call.AddStream (streamConfigOf cfg)])
    else (some err, b1, [Call.StreamInfo cfg.streamName])
  | (none, b1) => (none, b1, [Call.StreamInfo cfg.streamName])

/-- The function `New(nc *nats.Conn, opts ...Option) (*Worker, error)`; `nc` is the
broker state the connection reaches. Lines 63-79 are `newStreamStep`, lines 81-105
`newConsumerStep`. -/
def New {σ β : Type} (B : Broker β) (nc : β) (opts : List (WorkerOption σ)) :
    NewResult σ β :=
  let cfg := applyOptions opts
  match cfg.handler with
  | none => ⟨none, some ErrInvalidHandler, nc, []⟩
  | some _ =>
    if cfg.streamName = "" then ⟨none, some ErrStreamNameRequired, nc, []⟩
    else if cfg.filterSubject = "" then ⟨none, some ErrSubjectRequired, nc, []⟩
    else
      match B.JetStream nc with
      | (Except.error err, b1) => ⟨none, some err, b1, [Call.JetStream]⟩
      | (Except.ok js, b1) =>
        let w : Worker σ := workerOf cfg js
        match newStreamStep B cfg w b1 with
        | (some err, b2, calls) => ⟨none, some err, b2, Call.JetStream :: calls⟩
        | (none, b2, calls) => newConsumerStep B cfg w b2 (Call.JetStream :: calls)

/-! ## `worker.go`: the dispatch loop -/

/-- What a dispatch loop does to the outside, in the order it does it. -/
inductive Event where
  | Fetch (batch : Int) (maxWait : Int)
  | LogError (msg : String) (err : Error)
  | Sleep (d : Int)
  | Handle (msg : Msg)
  | Ack (msg : Msg)
  | Nak (msg : Msg)
  deriving DecidableEq, Repr

/-- What the outside answers in one turn of the `for` loop: whether `ctx.Done()` is
ready at the `select`, and, if the loop fetches, the result of `w.sub.Fetch`. -/
structure Iteration where
  ctxDone : Bool
  fetch : Except Error (List Msg)

/-- Where a loop is once the answers are used up: back at the top of the `for`
(`Fetching`), returned (`Stopped`), or crashed on a call of a nil handler. -/
inductive LoopStatus where
  | Fetching
  | Stopped
  | Panicked
  deriving DecidableEq, Repr

structure LoopResult (σ : Type) where
  status : LoopStatus
  trace : List Event
  state : σ

/-- Puts events in front of the trace of a result. -/
def LoopResult.after {σ : Type} (evs : List Event) (r : LoopResult σ) : LoopResult σ :=
  { r with trace := evs ++ r.trace }

/-- The loop `for _, msg := range msgs` of `processMessages` (lines 156-163), from
handler state `s`: the events and the handler state after the batch. -/
def dispatchBatch {σ : Type} (h : Handler σ) : σ → List Msg → List Event × σ
  | s, [] => ([], s)
  | s, msg :: rest =>
    match h s msg with
    | (some err, s1) =>
      let r := dispatchBatch h s1 rest
      ([Event.Handle msg, Event.LogError "error processing message" err, Event.Nak msg] ++ r.1,
        r.2)
    | (none, s1) =>
      let r := dispatchBatch h s1 rest
      ([Event.Handle msg, Event.Ack msg] ++ r.1, r.2)

/-- The method `(w *Worker) processMessages(ctx, workerID)`, run against the
answers `script` of the outside, one per turn of the `for` loop, from handler
state `s`. -/
def processMessages {σ : Type} (w : Worker σ) (workerID : Int) :
    σ → List Iteration → LoopResult σ
  | s, [] => ⟨LoopStatus.Fetching, [], s⟩
  | s, it :: rest =>
    if it.ctxDone then ⟨LoopStatus.Stopped, [], s⟩
    else
      let batchSize : Int := 10
      match it.fetch with
      | Except.error err =>
        if errorsIs err natsErrTimeout then
          (processMessages w workerID s rest).after [Event.Fetch batchSize (5 * Second)]
        else
          (processMessages w workerID s rest).after
            [Event.Fetch batchSize (5 * Second),
              Event.LogError "error fetching messages" err, Event.Sleep Second]
      | Except.ok msgs =>
        match w.handler with
        | some h =>
          let r := dispatchBatch h s msgs
          (processMessages w workerID r.2 rest).after
            (Event.Fetch batchSize (5 * Second) :: r.1)
        | none =>
          match msgs with
          | [] =>
            (processMessages w workerID s rest).after [Event.Fetch batchSize (5 * Second)]
          | _ :: _ => ⟨LoopStatus.Panicked, [Event.Fetch batchSize (5 * Second)], s⟩

/-! ## Reading a run -/

/-- The turns of a script the loop gets to: those before `ctx.Done()` is ready. -/
def liveIterations (script : List Iteration) : List Iteration :=
  script.takeWhile (fun it => !it.ctxDone)

/-- The messages of a fetch result. -/
def Iteration.batch (it : Iteration) : List Msg :=
  match it.fetch with
  | Except.ok msgs => msgs
  | Except.error _ => []

/-- Every message fetched in a run, in fetch order. -/
def fetchedMsgs (script : List Iteration) : List Msg :=
  (liveIterations script).flatMap Iteration.batch

/-- The handler called on the messages one after the other from state `s`: every
message with what the handler returned for it. -/
def outcomes {σ : Type} (h : Handler σ) : σ → List Msg → List (Msg × Option Error)
  | _, [] => []
  | s, msg :: rest => (msg, (h s msg).1) :: outcomes h (h s msg).2 rest

/-- The handler state after the handler was called on the messages in turn. -/
def stateAfter {σ : Type} (h : Handler σ) : σ → List Msg → σ
  | s, [] => s
  | s, msg :: rest => stateAfter h (h s msg).2 rest

/-- The messages passed to the handler, in order. -/
def handledMsgs (tr : List Event) : List Msg :=
  tr.filterMap (fun e => match e with
    | Event.Handle m => some m
    | _ => none)

/-- The events of a trace that hand a message to the handler or settle it. -/
def dispatchEvents (tr : List Event) : List Event :=
  tr.filter (fun e => match e with
    | Event.Handle _ => true
    | Event.Ack _ => true
    | Event.Nak _ => true
    | _ => false)

/-- What the loop is to do with one message: hand it to the handler, then one Ack
if the handler returned no error, one Nak if it returned one. -/
def settle (p : Msg × Option Error) : List Event :=
  match p.2 with
  | none => [Event.Handle p.1, Event.Ack p.1]
  | some _ => [Event.Handle p.1, Event.Nak p.1]

def countAck (tr : List Event) : Nat :=
  tr.countP (fun e => match e with
    | Event.Ack _ => true
    | _ => false)

def countNak (tr : List Event) : Nat :=
  tr.countP (fun e => match e with
    | Event.Nak _ => true
    | _ => false)

def countFetch (tr : List Event) : Nat :=
  tr.countP (fun e => match e with
    | Event.Fetch _ _ => true
    | _ => false)

/-- The Acks and Naks a given message received in a trace. -/
def acksOf (m : Msg) (tr : List Event) : Nat := tr.count (Event.Ack m)

def naksOf (m : Msg) (tr : List Event) : Nat := tr.count (Event.Nak m)

/-! ## Brokers -/

/-- A broker that accepts every request and binds every subscription asked for. -/
def acceptAll : Broker Unit where
  JetStream b := (Except.ok ⟨0⟩, b)
  StreamInfo _ b := (none, b)
  AddStream _ b := (none, b)
  AddConsumer _ _ b := (none, b)
  PullSubscribe subject durable stream b := (Except.ok ⟨subject, durable, stream⟩, b)
  Drain _ b := (none, b)

/-- The streams and the consumers (each with its stream) a broker holds. -/
structure BrokerState where
  streams : List StreamConfig
  consumers : List (String × ConsumerConfig)
  deriving DecidableEq, Repr

def BrokerState.hasStream (b : BrokerState) (name : String) : Bool :=
  b.streams.any (fun s => decide (s.Name = name))

def BrokerState.findConsumer (b : BrokerState) (stream durable : String) :
    Option (String × ConsumerConfig) :=
  b.consumers.find? (fun p => decide (p.1 = stream) && decide (p.2.Durable = durable))

/-- The consumer config `js.PullSubscribe` creates a consumer with when the consumer
it is asked for is not registered: the name as durable name, the subject as filter
subject, the explicit ack policy, every other field at its zero value. -/
def pullConsumerConfig (durable subject : String) : ConsumerConfig :=
  { Durable := durable
    AckPolicy := AckPolicy.AckExplicitPolicy
    AckWait := 0
    MaxDeliver := 0
    FilterSubject := subject
    DeliverPolicy := DeliverPolicy.DeliverAllPolicy
    ReplayPolicy := ReplayPolicy.ReplayInstantPolicy }

/-- A broker that keeps streams and consumers. A stream lookup finds a registered
stream or reports not-found; create-stream registers the stream. Add-consumer with a
durable name registers the consumer, succeeds without a change when the consumer is
there with an identical config and fails when it is there with another config;
without a durable name it registers a new ephemeral consumer at every call.
Pull-subscribe binds to the registered consumer of that name when its filter subject
agrees, and creates the consumer when none is registered, a new ephemeral one when
the name is empty. -/
def modelBroker : Broker BrokerState where
  JetStream b := (Except.ok ⟨0⟩, b)
  StreamInfo name b :=
    if b.hasStream name then (none, b) else (some natsErrStreamNotFound, b)
  AddStream cfg b :=
    match b.streams.find? (fun s => decide (s.Name = cfg.Name)) with
    | some old =>
      if old = cfg then (none, b) else (some (other "stream name already in use"), b)
    | none => (none, { b with streams := b.streams ++ [cfg] })
  AddConsumer stream cfg b :=
    if b.hasStream stream then
      if cfg.Durable = "" then
        (none, { b with consumers := b.consumers ++ [(stream, cfg)] })
      else
        match b.findConsumer stream cfg.Durable with
        | some old =>
          if old.2 = cfg then (none, b) else (some natsErrConsumerNameAlreadyInUse, b)
        | none => (none, { b with consumers := b.consumers ++ [(stream, cfg)] })
    else (some natsErrStreamNotFound, b)
  PullSubscribe subject durable stream b :=
    if b.hasStream stream then
      if durable = "" then
        (Except.ok ⟨subject, durable, stream⟩,
          { b with consumers := b.consumers ++ [(stream, pullConsumerConfig durable subject)] })
      else
        match b.findConsumer stream durable with
        | some old =>
          if old.2.FilterSubject = "" ∨ old.2.FilterSubject = subject then
            (Except.ok ⟨subject, durable, stream⟩, b)
          else (Except.error (other "nats: subject does not match consumer"), b)
        | none =>
          (Except.ok ⟨subject, durable, stream⟩,
            { b with consumers := b.consumers ++ [(stream, pullConsumerConfig durable subject)] })
    else (Except.error natsErrStreamNotFound, b)
  Drain _ b := (none, b)

/-- The create-stream calls of a trace. -/
def addStreamCalls (calls : List Call) : List StreamConfig :=
  calls.filterMap (fun c => match c with
    | Call.AddStream cfg => some cfg
    | _ => none)

/-- The add-consumer calls of a trace: stream and consumer config. -/
def addConsumerCalls (calls : List Call) : List (String × ConsumerConfig) :=
  calls.filterMap (fun c => match c with
    | Call.AddConsumer stream cfg => some (stream, cfg)
    | _ => none)

/-- The pull-subscribe calls of a trace: subject, consumer name, bound stream. -/
def pullSubscribeCalls (calls : List Call) : List (String × String × String) :=
  calls.filterMap (fun c => match c with
    | Call.PullSubscribe subject durable stream => some (subject, durable, stream)
    | _ => none)

/-- The consumer name `New` subscribes with: `cfg.consumerName` after lines 81-83. -/
def consumerNameOf {σ : Type} (cfg : config σ) : String :=
  if cfg.consumerName = "" then cfg.durableName else cfg.consumerName

/-- The config passes the three checks of `New` (lines 39-49). -/
def config.valid {σ : Type} (cfg : config σ) : Prop :=
  cfg.handler.isSome = true ∧ cfg.streamName ≠ "" ∧ cfg.filterSubject ≠ ""

/-- The options that name none of the six fields with a default that `New` uses:
`WithHandler`, `WithStream`, `WithConsumer` (the required ones), `WithDurable` and
`WithLogger`. -/
inductive NonOverriding {σ : Type} : WorkerOption σ → Prop where
  | handler (h : Option (Handler σ)) : NonOverriding (WithHandler h)
  | stream (name : String) : NonOverriding (WithStream name)
  | consumer (consumer subject : String) : NonOverriding (WithConsumer consumer subject)
  | durable (name : String) : NonOverriding (WithDurable name)
  | logger (l : Logger) : NonOverriding (WithLogger l)

/-- The six values of a config that have a default other than the zero value:
concurrency, ack-wait, max-deliver, delivery policy, replay policy, storage. -/
def config.tunables {σ : Type} (cfg : config σ) :
    Int × Int × Int × DeliverPolicy × ReplayPolicy × StorageType :=
  (cfg.concurrency, cfg.ackWait, cfg.maxDeliver, cfg.deliverPolicy, cfg.replayPolicy,
    cfg.storage)

/-! ## Concrete inputs -/

/-- A handler that succeeds on every message. -/
def okHandler : Handler Unit := fun s _ => (none, s)

/-- The required options and a durable name, no distinct consumer name. -/
def ordersOptions : List (WorkerOption Unit) :=
  [WithHandler (some okHandler), WithStream "ORDERS", WithConsumer "" "orders",
    WithDurable "orders-worker"]

/-- A broker that holds nothing. -/
def emptyBroker : BrokerState := ⟨[], []⟩

/-- A broker whose JetStream context cannot be obtained. -/
def noJetStream : Broker Unit where
  JetStream b := (Except.error (other "nats: jetstream not enabled"), b)
  StreamInfo _ b := (none, b)
  AddStream _ b := (none, b)
  AddConsumer _ _ b := (none, b)
  PullSubscribe subject durable stream b := (Except.ok ⟨subject, durable, stream⟩, b)
  Drain _ b := (none, b)

/-- The required options with a consumer name that differs from the durable name. -/
def distinctNameOptions : List (WorkerOption Unit) :=
  [WithHandler (some okHandler), WithStream "ORDERS", WithConsumer "orders-consumer" "orders",
    WithDurable "orders-worker"]

/-- The required options with concurrency and max-deliver set to zero. -/
def zeroBoundsOptions : List (WorkerOption Unit) :=
  [WithHandler (some okHandler), WithStream "ORDERS", WithConsumer "" "orders",
    WithDurable "orders-worker", WithConcurrency 0, WithMaxDeliver 0]

/-- The worker `New` returns for `ordersOptions` on the broker `acceptAll`. -/
def ordersWorker : Worker Unit :=
  { js := ⟨0⟩
    sub := some ⟨"orders", "orders-worker", "ORDERS"⟩
    handler := some okHandler
    log := slogDefault
    concurrency := 1 }

/-- A handler that counts its calls and returns an error on the fifth. -/
def failFifth : Handler Nat :=
  fun n _ => (if n = 4 then some (other "cannot process") else none, n + 1)

def countingOptions : List (WorkerOption Nat) :=
  [WithHandler (some failFifth), WithStream "ORDERS", WithConsumer "" "orders",
    WithDurable "orders-worker", WithConcurrency 3]

/-- The worker `New` returns for `countingOptions` on the broker `acceptAll`. -/
def countingWorker : Worker Nat :=
  { js := ⟨0⟩
    sub := some ⟨"orders", "orders-worker", "ORDERS"⟩
    handler := some failFifth
    log := slogDefault
    concurrency := 3 }

def tenMessages : List Msg :=
  [⟨"orders.1", []⟩, ⟨"orders.2", []⟩, ⟨"orders.3", []⟩, ⟨"orders.4", []⟩, ⟨"orders.5", []⟩,
    ⟨"orders.6", []⟩, ⟨"orders.7", []⟩, ⟨"orders.8", []⟩, ⟨"orders.9", []⟩, ⟨"orders.10", []⟩]

/-- One fetch that returns a batch of ten messages, the context not cancelled. -/
def oneBatch : List Iteration := [⟨false, Except.ok tenMessages⟩]

/-- A broker that holds the stream "ORDERS" and, on it, a consumer "orders-worker"
with max-deliver 5. -/
def conflictingBroker : BrokerState :=
  { streams := [{ Name := "ORDERS", Subjects := ["orders.>"], Storage := StorageType.FileStorage }]
    consumers :=
      [("ORDERS",
        { Durable := "orders-worker"
          AckPolicy := AckPolicy.AckExplicitPolicy
          AckWait := 30000000000
          MaxDeliver := 5
          FilterSubject := "orders"
          DeliverPolicy := DeliverPolicy.DeliverAllPolicy
          ReplayPolicy := ReplayPolicy.ReplayInstantPolicy })] }

/-! ## Reading the fetches of a run -/

/-- What one turn of the loop does about its fetch (lines 142-154): the fetch, and,
for an error that is not the timeout, the error log and the sleep of one second. -/
def fetchEvents (it : Iteration) : List Event :=
  match it.fetch with
  | Except.error err =>
    if errorsIs err natsErrTimeout then [Event.Fetch 10 (5 * Second)]
    else [Event.Fetch 10 (5 * Second), Event.LogError "error fetching messages" err,
      Event.Sleep Second]
  | Except.ok _ => [Event.Fetch 10 (5 * Second)]

/-- The events of a trace that are about fetching: fetches, sleeps and the error
logs of line 151. -/
def loopEvents (tr : List Event) : List Event :=
  tr.filter (fun e => match e with
    | Event.Fetch _ _ => true
    | Event.Sleep _ => true
    | Event.LogError msg _ => decide (msg = "error fetching messages")
    | _ => false)

def countSleep (tr : List Event) : Nat :=
  tr.countP (fun e => match e with
    | Event.Sleep _ => true
    | _ => false)

/-- The error logs of line 151 in a trace. -/
def countFetchErrorLog (tr : List Event) : Nat :=
  tr.countP (fun e => match e with
    | Event.LogError msg _ => decide (msg = "error fetching messages")
    | _ => false)

/-- A turn in which the context is not cancelled and the fetch fails. -/
def failedFetch (err : Error) : Iteration := ⟨false, Except.error err⟩

/-- The turns the loop gets to in which the fetch fails with an error that is not
the timeout. -/
def backoffTurns (script : List Iteration) : List Iteration :=
  (liveIterations script).filter (fun it => match it.fetch with
    | Except.error err => !errorsIs err natsErrTimeout
    | Except.ok _ => false)

/-- Three fetches that time out, the context not cancelled. -/
def threeTimeouts : List Iteration :=
  [failedFetch natsErrTimeout, failedFetch natsErrTimeout, failedFetch natsErrTimeout]

/-- A fetch that the cancellation interrupts, so that it returns the error of the
context, and the next look at `ctx.Done()`. -/
def cancelledDuringFetch : List Iteration :=
  [⟨false, Except.error contextCanceled⟩, ⟨true, Except.error contextCanceled⟩]

/-! ## `worker.go`: `Shutdown`, and the context of `Run` -/

/-- The worker and the broker after `Shutdown`, and the drain requests it made. -/
structure ShutdownResult (σ β : Type) where
  worker : Worker σ
  broker : β
  drains : List Subscription

/-- The method `(w *Worker) Shutdown()`; the error `Drain` returns is dropped. -/
def Shutdown {σ β : Type} (B : Broker β) (w : Worker σ) (b : β) : ShutdownResult σ β :=
  match w.sub with
  | some sub => ⟨w, (B.Drain sub b).2, [sub]⟩
  | none => ⟨w, b, []⟩

/-- What happens around one turn of a loop while `Run` is in progress: whether a
SIGINT or SIGTERM was delivered before the turn, whether the owning process called
`Shutdown` before the turn, and what `w.sub.Fetch` answers if the turn fetches. -/
structure RunTurn where
  signal : Bool
  shutdown : Bool
  fetch : Except Error (List Msg)

/-- The context of `Run` (line 111) as a loop sees it turn by turn: `cancel` is
called by the goroutine of lines 116-120 once a signal is delivered, and otherwise
only by the `defer` of line 112 when `Run` returns. `cancelled` tells whether
`cancel` was called before. -/
def ctxOf : Bool → List RunTurn → List Iteration
  | _, [] => []
  | cancelled, t :: rest =>
    ⟨cancelled || t.signal, t.fetch⟩ :: ctxOf (cancelled || t.signal) rest

/-- The calls of `Shutdown` made during the turns, on the broker: the broker after
them and the drain requests. -/
def shutdownsOf {σ β : Type} (B : Broker β) (w : Worker σ) : β → List RunTurn →
    β × List Subscription
  | b, [] => (b, [])
  | b, t :: rest =>
    if t.shutdown then
      let r := Shutdown B w b
      let q := shutdownsOf B w r.broker rest
      (q.1, r.drains ++ q.2)
    else shutdownsOf B w b rest

/-- One loop started by `Run` (lines 123-129) under the context of `Run`, with the
calls of `Shutdown` made meanwhile: the loop, the broker and the drain requests. -/
def runLoop {σ β : Type} (B : Broker β) (w : Worker σ) (workerID : Int) (s : σ) (b : β)
    (turns : List RunTurn) : LoopResult σ × β × List Subscription :=
  (processMessages w workerID s (ctxOf false turns), shutdownsOf B w b turns)

/-- A broker that keeps the subscriptions drained so far: draining a subscription
again is refused and changes nothing. -/
def drainBroker : Broker (List Subscription) where
  JetStream b := (Except.ok ⟨0⟩, b)
  StreamInfo _ b := (none, b)
  AddStream _ b := (none, b)
  AddConsumer _ _ b := (none, b)
  PullSubscribe subject durable stream b := (Except.ok ⟨subject, durable, stream⟩, b)
  Drain sub b := if sub ∈ b then (some natsErrBadSubscription, b) else (none, sub :: b)

/-- A call of `Shutdown`, no signal, and a fetch refused on the drained
subscription; then further turns without signal or `Shutdown`, with the given fetch
results. -/
def shutdownThenFetches (fetches : List (Except Error (List Msg))) : List RunTurn :=
  ⟨false, true, Except.error natsErrBadSubscription⟩ ::
    fetches.map (fun f => ⟨false, false, f⟩)

/-- The required options only: no durable name, no consumer name. -/
def noDurableOptions : List (WorkerOption Unit) :=
  [WithHandler (some okHandler), WithStream "ORDERS", WithConsumer "" "orders"]

end worker

/-!
# Login handler (package `auth0`)

A shallow embedding of `generateRandomState` and `HandleLogin` of
`auth/auth0/handlers.go`, with the mock session manager of `handlers_test.go`.

* The random source, the session manager and the logger are the outside: the answer
  of `rand.Read` is an argument, the session manager is a record of functions over
  an arbitrary session state, log lines are returned.
* The library functions the handler calls are modelled after the Go libraries:
  `base64.RawURLEncoding.EncodeToString`, `oauth2.Config.AuthCodeURL` with
  `url.Values.Encode` and `url.QueryEscape`, `http.Error`, and `http.Redirect` for a
  target with a scheme; what `http.Redirect` makes of a target without scheme is an
  argument, `relativeTarget` for a target that `url.Parse` reads as a relative
  reference. Response bodies are not modelled, the response starts with no header.
-/

namespace auth0

def StateKey : String := "state"

/-- A Go error, by the text of `err.Error()`. -/
structure GoError where
  text : String
  deriving DecidableEq, Repr

/-! ## `encoding/base64` -/

/-- The alphabet of `base64.RawURLEncoding`. -/
def base64URLAlphabet : List Char :=
  "ABCDEFGHIJKLMNOPQRSTUVWXYZabcdefghijklmnopqrstuvwxyz0123456789-_".data

def base64URLChar (n : Nat) : Char := base64URLAlphabet.getD n '_'

/-- Base64 without padding: three bytes give four characters, a last single byte
two, a last pair three. -/
def encodeRawURL : List UInt8 → List Char
  | [] => []
  | [a] => [base64URLChar (a.toNat / 4), base64URLChar (a.toNat % 4 * 16)]
  | [a, b] =>
    [base64URLChar (a.toNat / 4), base64URLChar (a.toNat % 4 * 16 + b.toNat / 16),
      base64URLChar (b.toNat % 16 * 4)]
  | a :: b :: c :: rest =>
    base64URLChar (a.toNat / 4) :: base64URLChar (a.toNat % 4 * 16 + b.toNat / 16) ::
      base64URLChar (b.toNat % 16 * 4 + c.toNat / 64) :: base64URLChar (c.toNat % 64) ::
        encodeRawURL rest

/-- The call `base64.RawURLEncoding.EncodeToString(src)`. -/
def EncodeToString (src : List UInt8) : String := String.mk (encodeRawURL src)

/-! ## `handlers.go`: `generateRandomState` -/

/-- The buffer `b` after `rand.Read(b)` wrote `bytes` into it: as long as `b`, with
the bytes of `b` where the source gave none. -/
def readInto (b bytes : List UInt8) : List UInt8 :=
  (bytes ++ b.drop bytes.length).take b.length

/-- The function `generateRandomState() (string, error)`; `rand` is what
`rand.Read(b)` answers, an error or the bytes it wrote. -/
def generateRandomState (rand : Except GoError (List UInt8)) : Except GoError String :=
  let b : List UInt8 := List.replicate 32 0
  match rand with
  | Except.error err => Except.error err
  | Except.ok bytes => Except.ok (EncodeToString (readInto b bytes))

/-! ## `net/url` and `oauth2` -/

def isLetter (c : Char) : Bool :=
  (decide (97 ≤ c.toNat) && decide (c.toNat ≤ 122)) ||
    (decide (65 ≤ c.toNat) && decide (c.toNat ≤ 90))

def isDigit (c : Char) : Bool := decide (48 ≤ c.toNat) && decide (c.toNat ≤ 57)

def upperHexDigit (n : Nat) : Char := "0123456789ABCDEF".data.getD n '0'

def lowerHexDigit (n : Nat) : Char := "0123456789abcdef".data.getD n '0'

/-- The function `url.QueryEscape`, character by character: unreserved characters
stay, a space becomes `+`, every other byte becomes `%XX`. -/
def queryEscapeChar (c : Char) : List Char :=
  if isLetter c || isDigit c || c = '-' || c = '_' || c = '.' || c = '~' then [c]
  else if c = ' ' then ['+']
  else (String.utf8EncodeChar c).flatMap
    (fun b => ['%', upperHexDigit (b.toNat / 16), upperHexDigit (b.toNat % 16)])

def QueryEscape (s : String) : String := String.mk (s.data.flatMap queryEscapeChar)

/-- The method `url.Values.Encode` on values given in the order of their keys. -/
def encodeValues (v : List (String × String)) : String :=
  "&".intercalate (v.map (fun p => QueryEscape p.1 ++ "=" ++ QueryEscape p.2))

/-- Go `url.getScheme` finds a scheme: a letter, then letters, digits, `+`, `-`, `.`,
then a colon. `first` tells whether the scan is at the first character. -/
def schemeScan : Bool → List Char → Bool
  | _, [] => false
  | first, c :: rest =>
    if isLetter c then schemeScan false rest
    else if isDigit c || c = '+' || c = '-' || c = '.' then
      (if first then false else schemeScan false rest)
    else if c = ':' then !first
    else false

def hasScheme (rawURL : String) : Bool := schemeScan true rawURL.data

structure Endpoint where
  AuthURL : String
  TokenURL : String
  deriving DecidableEq, Repr

/-- The fields of `oauth2.Config`. -/
structure OAuth2Config where
  ClientID : String
  ClientSecret : String
  Endpoint : Endpoint
  RedirectURL : String
  Scopes : List String
  deriving DecidableEq, Repr

/-- The method `(c *oauth2.Config) AuthCodeURL(state)` with no further option: the
authorization URL, `?` or `&`, and the encoded values. -/
def AuthCodeURL (c : OAuth2Config) (state : String) : String :=
  let v : List (String × String) :=
    [("client_id", c.ClientID)] ++
      (if c.RedirectURL ≠ "" then [("redirect_uri", c.RedirectURL)] else []) ++
      [("response_type", "code")] ++
      (if c.Scopes ≠ [] then [("scope", " ".intercalate c.Scopes)] else []) ++
      (if state ≠ "" then [("state", state)] else [])
  c.Endpoint.AuthURL ++
    (if c.Endpoint.AuthURL.data.any (fun ch => ch == '?') then "&" else "?") ++
    encodeValues v

/-! ## `net/http` -/

structure Request where
  Method : String
  Path : String
  Host : String
  TLS : Bool
  deriving DecidableEq, Repr

/-- What a handler wrote to its `http.ResponseWriter`: status code and headers. -/
structure Response where
  status : Nat
  header : List (String × String)
  deriving DecidableEq, Repr

def StatusFound : Nat := 302

def StatusInternalServerError : Nat := 500

/-- The function `http.Error`. -/
def httpError (_error : String) (code : Nat) : Response :=
  ⟨code, [("Content-Type", "text/plain; charset=utf-8"), ("X-Content-Type-Options", "nosniff")]⟩

/-- The function `hexEscapeNonASCII` of `net/http`, character by character: every
byte of a character that is not ASCII becomes `%xx`. -/
def hexEscapeChar (c : Char) : List Char :=
  if c.toNat < 128 then [c]
  else (String.utf8EncodeChar c).flatMap
    (fun b => ['%', lowerHexDigit (b.toNat / 16), lowerHexDigit (b.toNat % 16)])

def hexEscapeNonASCII (s : String) : String := String.mk (s.data.flatMap hexEscapeChar)

/-- The function `http.Redirect(w, r, url, code)`. A target with a scheme is sent as
it is; `relative` is what `http.Redirect` makes of a target without scheme, from the
path of the request. -/
def Redirect (relative : Request → String → String) (r : Request) (url : String)
    (code : Nat) : Response :=
  let target := if hasScheme url then url else relative r url
  ⟨code,
    [("Location", hexEscapeNonASCII target)] ++
      (if r.Method = "GET" ∨ r.Method = "HEAD" then
        [("Content-Type", "text/html; charset=utf-8")] else [])⟩

/-! ## `auth0.go`, `handlers.go`: `HandleLogin` -/

/-- A value kept in the session: nil or a string. -/
inductive SessionValue where
  | nil
  | string (s : String)
  deriving DecidableEq, Repr

/-- The interface `SessionManager`, over a session state `γ`. -/
structure SessionManager (γ : Type) where
  Get : String → γ → SessionValue
  Put : String → SessionValue → γ → γ

/-- The fields of `authenticator.Authenticator` the handler reads. -/
structure Authenticator where
  Config : OAuth2Config
  LogoutURL : String
  deriving DecidableEq, Repr

inductive LogLine where
  | Info (msg key value : String)
  | Error (msg key value : String)
  deriving DecidableEq, Repr

/-- The struct `deps`, without the logger handle and the post-login hooks. -/
structure deps (γ : Type) where
  auth : Authenticator
  logoutBase : String
  sessions : SessionManager γ

/-- What a handler did: the response, the session state and the log lines. -/
structure Handled (γ : Type) where
  response : Response
  sessions : γ
  logs : List LogLine

/-- The handler `HandleLogin(deps)`, on a request `r` with session state `store`. -/
def HandleLogin {γ : Type} (relative : Request → String → String) (d : deps γ)
    (rand : Except GoError (List UInt8)) (r : Request) (store : γ) : Handled γ :=
  match generateRandomState rand with
  | Except.error err =>
    ⟨httpError err.text StatusInternalServerError, store,
      [LogLine.Error "unable to generate random state" "error" err.text]⟩
  | Except.ok state =>
    ⟨Redirect relative r (AuthCodeURL d.auth.Config state) StatusFound,
      d.sessions.Put StateKey (SessionValue.string state) store,
      [LogLine.Info "generated state" "state" state]⟩

/-! ## `handlers_test.go` -/

/-- The type `mockSessionManager`: the store is a list of keys with their values. -/
def mockSessionManager : SessionManager (List (String × SessionValue)) where
  Get key store := (store.lookup key).getD SessionValue.nil
  Put key value store :=
    if value = SessionValue.nil then store.filter (fun p => p.1 != key)
    else (key, value) :: store.filter (fun p => p.1 != key)

/-- The `deps` of `TestHandleLogic`. -/
def testDeps : deps (List (String × SessionValue)) :=
  { auth :=
      { Config :=
          { ClientID := ""
            ClientSecret := ""
            Endpoint := { AuthURL := "https://test.auth0.com/authorize", TokenURL := "" }
            RedirectURL := ""
            Scopes := [] }
        LogoutURL := "" }
    logoutBase := ""
    sessions := mockSessionManager }

/-- The request `httptest.NewRequest("GET", "/login", nil)`. -/
def testRequest : Request := ⟨"GET", "/login", "example.com", false⟩

/-- Thirty-two bytes from the random source. -/
def testBytes : List UInt8 :=
  [0, 1, 2, 3, 4, 5, 6, 7, 8, 9, 10, 11, 12, 13, 14, 15, 16, 17, 18, 19, 20, 21, 22, 23, 24,
    25, 26, 27, 28, 29, 30, 255]

/-! ## `net/http`: a target without scheme -/

/-- The elements of a path between its slashes. -/
def splitSlash : List Char → List (List Char)
  | [] => [[]]
  | c :: rest =>
    if c = '/' then [] :: splitSlash rest
    else
      match splitSlash rest with
      | seg :: more => (c :: seg) :: more
      | [] => [[c]]

/-- The elements `path.Clean` keeps, last first: empty elements and `.` go, `..`
takes the element before it with it, and goes alone at the root. -/
def cleanElements (rooted : Bool) : List (List Char) → List (List Char) → List (List Char)
  | kept, [] => kept
  | kept, seg :: rest =>
    if seg = [] ∨ seg = ['.'] then cleanElements rooted kept rest
    else if seg = ['.', '.'] then
      match kept with
      | top :: below =>
        if top = ['.', '.'] then cleanElements rooted (seg :: kept) rest
        else cleanElements rooted below rest
      | [] => if rooted then cleanElements rooted [] rest else cleanElements rooted [seg] rest
    else cleanElements rooted (seg :: kept) rest

/-- The function `path.Clean`. -/
def pathClean (p : String) : String :=
  let rooted := p.data.head? = some '/'
  let kept := (cleanElements rooted [] (splitSlash p.data)).reverse
  let body := String.mk (List.intercalate ['/'] kept)
  let out := (if rooted then "/" else "") ++ body
  if out = "" then "." else out

/-- The directory of `path.Split`: the path up to its last slash, the slash included. -/
def pathDir (p : String) : String :=
  String.mk (p.data.reverse.dropWhile (fun c => c != '/')).reverse

/-- What `http.Redirect` makes of a target that `url.Parse` reads with neither scheme
nor host: the directory of the request path goes in front of a target that does not
begin with a slash, and the path before the query is cleaned, a last slash kept. -/
def relativeTarget (r : Request) (url : String) : String :=
  let oldpath := if r.Path = "" then "/" else r.Path
  let url := if url.data.head? = some '/' then url else pathDir oldpath ++ url
  let path := String.mk (url.data.takeWhile (fun c => c != '?'))
  let query := String.mk (url.data.dropWhile (fun c => c != '?'))
  let trailing := path.data.getLast? = some '/'
  let cleaned := pathClean path
  let cleaned :=
    if trailing ∧ cleaned.data.getLast? ≠ some '/' then cleaned ++ "/" else cleaned
  cleaned ++ query

/-- The `deps` of the test with an authorization URL that is not in ASCII. -/
def accentDeps : deps (List (String × SessionValue)) :=
  { testDeps with
    auth :=
      { testDeps.auth with
        Config :=
          { testDeps.auth.Config with
            Endpoint := { AuthURL := "https://tést.example/authorize", TokenURL := "" } } } }

/-- The `deps` of the test with an authorization URL that has no scheme. -/
def pathDeps : deps (List (String × SessionValue)) :=
  { testDeps with
    auth :=
      { testDeps.auth with
        Config :=
          { testDeps.auth.Config with
            Endpoint := { AuthURL := "authorize", TokenURL := "" } } } }

end auth0

/-! ## Theorems -/

namespace worker

open Error

/-! ### Construction: validation -/

theorem New_of_handler_none {σ β : Type} (B : Broker β) (nc : β)
    (opts : List (WorkerOption σ)) (h : (applyOptions opts).handler = none) :
    New B nc opts = ⟨none, some ErrInvalidHandler, nc, []⟩ := by
  simp [New, h]

theorem New_of_streamName_empty {σ β : Type} (B : Broker β) (nc : β)
    (opts : List (WorkerOption σ)) (h : (applyOptions opts).handler ≠ none)
    (hs : (applyOptions opts).streamName = "") :
    New B nc opts = ⟨none, some ErrStreamNameRequired, nc, []⟩ := by
  cases hh : (applyOptions opts).handler with
  | none => exact absurd hh h
  | some f => simp [New, hh, hs]

theorem New_of_subject_empty {σ β : Type} (B : Broker β) (nc : β)
    (opts : List (WorkerOption σ)) (h : (applyOptions opts).handler ≠ none)
    (hs : (applyOptions opts).streamName ≠ "")
    (hf : (applyOptions opts).filterSubject = "") :
    New B nc opts = ⟨none, some ErrSubjectRequired, nc, []⟩ := by
  cases hh : (applyOptions opts).handler with
  | none => exact absurd hh h
  | some f => simp [New, hh, hs, hf]

/-- C1: for every option list, with the config the options give: a nil handler
makes `New` return no worker and `ErrInvalidHandler`; otherwise an empty stream
name makes it return no worker and `ErrStreamNameRequired`; otherwise an empty
subject makes it return no worker and `ErrSubjectRequired`; in all three cases
`New` makes no call to the broker. The three errors are pairwise distinct. -/
theorem New_validation_priority {σ β : Type} (B : Broker β) (nc : β)
    (opts : List (WorkerOption σ)) :
    ((applyOptions opts).handler = none →
      (New B nc opts).worker = none ∧ (New B nc opts).err = some ErrInvalidHandler ∧
        (New B nc opts).calls = []) ∧
    ((applyOptions opts).handler ≠ none → (applyOptions opts).streamName = "" →
      (New B nc opts).worker = none ∧ (New B nc opts).err = some ErrStreamNameRequired ∧
        (New B nc opts).calls = []) ∧
    ((applyOptions opts).handler ≠ none → (applyOptions opts).streamName ≠ "" →
      (applyOptions opts).filterSubject = "" →
      (New B nc opts).worker = none ∧ (New B nc opts).err = some ErrSubjectRequired ∧
        (New B nc opts).calls = []) ∧
    ErrInvalidHandler ≠ ErrStreamNameRequired ∧
    ErrInvalidHandler ≠ ErrSubjectRequired ∧
    ErrStreamNameRequired ≠ ErrSubjectRequired := by
  refine ⟨?_, ?_, ?_, by decide, by decide, by decide⟩
  · intro h
    rw [New_of_handler_none B nc opts h]
    exact ⟨rfl, rfl, rfl⟩
  · intro h hs
    rw [New_of_streamName_empty B nc opts h hs]
    exact ⟨rfl, rfl, rfl⟩
  · intro h hs hf
    rw [New_of_subject_empty B nc opts h hs hf]
    exact ⟨rfl, rfl, rfl⟩

/-! ### Construction: the provisioning paths -/

theorem New_of_valid {σ β : Type} (B : Broker β) (nc : β) (opts : List (WorkerOption σ))
    (hv : (applyOptions opts).valid) :
    New B nc opts =
      match B.JetStream nc with
      | (Except.error err, b1) => ⟨none, some err, b1, [Call.JetStream]⟩
      | (Except.ok js, b1) =>
        match newStreamStep B (applyOptions opts) (workerOf (applyOptions opts) js) b1 with
        | (some err, b2, calls) => ⟨none, some err, b2, Call.JetStream :: calls⟩
        | (none, b2, calls) =>
          newConsumerStep B (applyOptions opts) (workerOf (applyOptions opts) js) b2
            (Call.JetStream :: calls) := by
  obtain ⟨hh, hs, hf⟩ := hv
  obtain ⟨f, hf2⟩ := Option.isSome_iff_exists.mp hh
  simp [New, hf2, hs, hf]

theorem newConsumerStep_eq {σ β : Type} (B : Broker β) (cfg : config σ) (w : Worker σ)
    (b : β) (calls : List Call) :
    newConsumerStep B cfg w b calls =
      match B.AddConsumer cfg.streamName (consumerConfigOf cfg) b with
      | (some err, b1) =>
        ⟨none, some err, b1, calls ++ [Call.AddConsumer cfg.streamName (consumerConfigOf cfg)]⟩
      | (none, b1) =>
        match B.PullSubscribe cfg.filterSubject (consumerNameOf cfg) cfg.streamName b1 with
        | (Except.error err, b2) =>
          ⟨none, some err, b2,
            calls ++ [Call.AddConsumer cfg.streamName (consumerConfigOf cfg),
              Call.PullSubscribe cfg.filterSubject (consumerNameOf cfg) cfg.streamName]⟩
        | (Except.ok sub, b2) =>
          ⟨some { w with sub := some sub }, none, b2,
            calls ++ [Call.AddConsumer cfg.streamName (consumerConfigOf cfg),
              Call.PullSubscribe cfg.filterSubject (consumerNameOf cfg) cfg.streamName]⟩ := by
  unfold newConsumerStep consumerNameOf
  by_cases hc : cfg.consumerName = ""
  · simp only [hc, if_true]
    rfl
  · simp only [hc, if_false]

theorem New_of_JetStream_error {σ β : Type} (B : Broker β) (nc : β)
    (opts : List (WorkerOption σ)) (hv : (applyOptions opts).valid) (err : Error) (b1 : β)
    (hJ : B.JetStream nc = (Except.error err, b1)) :
    New B nc opts = ⟨none, some err, b1, [Call.JetStream]⟩ := by
  rw [New_of_valid B nc opts hv, hJ]

theorem New_of_stream_error {σ β : Type} (B : Broker β) (nc : β)
    (opts : List (WorkerOption σ)) (hv : (applyOptions opts).valid)
    (js : JetStreamContext) (b1 b2 : β) (err : Error) (calls : List Call)
    (hJ : B.JetStream nc = (Except.ok js, b1))
    (hS : newStreamStep B (applyOptions opts) (workerOf (applyOptions opts) js) b1
      = (some err, b2, calls)) :
    New B nc opts = ⟨none, some err, b2, Call.JetStream :: calls⟩ := by
  rw [New_of_valid B nc opts hv, hJ]
  simp only [hS]

theorem New_of_stream_ok {σ β : Type} (B : Broker β) (nc : β)
    (opts : List (WorkerOption σ)) (hv : (applyOptions opts).valid)
    (js : JetStreamContext) (b1 b2 : β) (calls : List Call)
    (hJ : B.JetStream nc = (Except.ok js, b1))
    (hS : newStreamStep B (applyOptions opts) (workerOf (applyOptions opts) js) b1
      = (none, b2, calls)) :
    New B nc opts =
      newConsumerStep B (applyOptions opts) (workerOf (applyOptions opts) js) b2
        (Call.JetStream :: calls) := by
  rw [New_of_valid B nc opts hv, hJ]
  simp only [hS]

theorem newStreamStep_found {σ β : Type} (B : Broker β) (cfg : config σ) (w : Worker σ)
    (b b1 : β) (hI : B.StreamInfo cfg.streamName b = (none, b1)) :
    newStreamStep B cfg w b = (none, b1, [Call.StreamInfo cfg.streamName]) := by
  simp [newStreamStep, hI]

theorem newStreamStep_other_error {σ β : Type} (B : Broker β) (cfg : config σ)
    (w : Worker σ) (b b1 : β) (err : Error)
    (hI : B.StreamInfo cfg.streamName b = (some err, b1))
    (hE : errorsIs err natsErrStreamNotFound = false) :
    newStreamStep B cfg w b = (some err, b1, [Call.StreamInfo cfg.streamName]) := by
  simp [newStreamStep, hI, hE]

theorem newStreamStep_not_found {σ β : Type} (B : Broker β) (cfg : config σ)
    (w : Worker σ) (b b1 : β) (err : Error)
    (hI : B.StreamInfo cfg.streamName b = (some err, b1))
    (hE : errorsIs err natsErrStreamNotFound = true) :
    newStreamStep B cfg w b =
      ((B.AddStream (streamConfigOf cfg) b1).1, (B.AddStream (streamConfigOf cfg) b1).2,
        [Call.StreamInfo cfg.streamName,
          Call.LogInfo w.log "creating stream" "name" cfg.streamName,
          Call.AddStream (streamConfigOf cfg)]) := by
  simp only [newStreamStep, hI, hE, if_true]
  rcases hA : B.AddStream (streamConfigOf cfg) b1 with ⟨_ | e, b2⟩ <;> rfl

/-- The create-stream calls of the stream step: none when the lookup finds the
stream or fails otherwise, the one with the configured stream when it reports
not-found. -/
theorem newStreamStep_addStreamCalls {σ β : Type} (B : Broker β) (cfg : config σ)
    (w : Worker σ) (b : β) :
    addStreamCalls (newStreamStep B cfg w b).2.2 =
      match (B.StreamInfo cfg.streamName b).1 with
      | some err => if errorsIs err natsErrStreamNotFound then [streamConfigOf cfg] else []
      | none => [] := by
  rcases hI : B.StreamInfo cfg.streamName b with ⟨_ | err, b1⟩
  · rw [newStreamStep_found B cfg w b b1 hI]
    rfl
  · cases hE : errorsIs err natsErrStreamNotFound
    · rw [newStreamStep_other_error B cfg w b b1 err hI hE]
      simp [addStreamCalls, hE]
    · rw [newStreamStep_not_found B cfg w b b1 err hI hE]
      simp [addStreamCalls, hE]

theorem newStreamStep_no_consumer_calls {σ β : Type} (B : Broker β) (cfg : config σ)
    (w : Worker σ) (b : β) :
    addConsumerCalls (newStreamStep B cfg w b).2.2 = [] ∧
      pullSubscribeCalls (newStreamStep B cfg w b).2.2 = [] := by
  rcases hI : B.StreamInfo cfg.streamName b with ⟨_ | err, b1⟩
  · rw [newStreamStep_found B cfg w b b1 hI]
    exact ⟨rfl, rfl⟩
  · cases hE : errorsIs err natsErrStreamNotFound
    · rw [newStreamStep_other_error B cfg w b b1 err hI hE]
      exact ⟨rfl, rfl⟩
    · rw [newStreamStep_not_found B cfg w b b1 err hI hE]
      exact ⟨rfl, rfl⟩

theorem newConsumerStep_calls {σ β : Type} (B : Broker β) (cfg : config σ) (w : Worker σ)
    (b : β) (calls : List Call) :
    (newConsumerStep B cfg w b calls).calls =
      calls ++ Call.AddConsumer cfg.streamName (consumerConfigOf cfg) ::
        (match (B.AddConsumer cfg.streamName (consumerConfigOf cfg) b).1 with
          | some _ => []
          | none => [Call.PullSubscribe cfg.filterSubject (consumerNameOf cfg) cfg.streamName]) := by
  rw [newConsumerStep_eq]
  rcases hA : B.AddConsumer cfg.streamName (consumerConfigOf cfg) b with ⟨_ | e, b1⟩
  · rcases hP : B.PullSubscribe cfg.filterSubject (consumerNameOf cfg) cfg.streamName b1
      with ⟨_ | sub, b2⟩ <;> simp [hP]
  · simp

theorem addStreamCalls_newConsumerStep {σ β : Type} (B : Broker β) (cfg : config σ)
    (w : Worker σ) (b : β) (calls : List Call) :
    addStreamCalls (newConsumerStep B cfg w b calls).calls = addStreamCalls calls := by
  rw [newConsumerStep_calls]
  cases (B.AddConsumer cfg.streamName (consumerConfigOf cfg) b).1 <;>
    simp [addStreamCalls, List.filterMap_append]

/-- The create-stream calls of `New` are those of its stream step. -/
theorem addStreamCalls_New {σ β : Type} (B : Broker β) (nc : β)
    (opts : List (WorkerOption σ)) (hv : (applyOptions opts).valid)
    (js : JetStreamContext) (b1 : β) (hJ : B.JetStream nc = (Except.ok js, b1)) :
    addStreamCalls (New B nc opts).calls =
      addStreamCalls
        (newStreamStep B (applyOptions opts) (workerOf (applyOptions opts) js) b1).2.2 := by
  rcases hS : newStreamStep B (applyOptions opts) (workerOf (applyOptions opts) js) b1
    with ⟨_ | e, b2, calls⟩
  · rw [New_of_stream_ok B nc opts hv js b1 b2 calls hJ hS, addStreamCalls_newConsumerStep]
    rfl
  · rw [New_of_stream_error B nc opts hv js b1 b2 e calls hJ hS]
    rfl

/-- C3: for a config that passes validation and a broker whose JetStream context
is obtained, the stream step of `New` is lookup-or-create. When the lookup of the
configured stream reports not-found, `New` makes exactly one create-stream call,
with the configured stream name, the single subject pattern subject + ".>" and the
configured storage. When the lookup succeeds, `New` makes no create-stream call and
its next call is the add-consumer call. -/
theorem New_stream_lookup_or_create {σ β : Type} (B : Broker β) (nc : β)
    (opts : List (WorkerOption σ)) (hv : (applyOptions opts).valid)
    (js : JetStreamContext) (b1 : β) (hJ : B.JetStream nc = (Except.ok js, b1)) :
    (∀ (err : Error) (b2 : β),
      B.StreamInfo (applyOptions opts).streamName b1 = (some err, b2) →
      errorsIs err natsErrStreamNotFound = true →
      addStreamCalls (New B nc opts).calls =
        [{ Name := (applyOptions opts).streamName
           Subjects := [(applyOptions opts).filterSubject ++ ".>"]
           Storage := (applyOptions opts).storage }]) ∧
    (∀ b2 : β, B.StreamInfo (applyOptions opts).streamName b1 = (none, b2) →
      addStreamCalls (New B nc opts).calls = [] ∧
      (New B nc opts).calls.take 3 =
        [Call.JetStream, Call.StreamInfo (applyOptions opts).streamName,
          Call.AddConsumer (applyOptions opts).streamName
            (consumerConfigOf (applyOptions opts))]) := by
  constructor
  · intro err b2 hI hE
    rw [addStreamCalls_New B nc opts hv js b1 hJ, newStreamStep_addStreamCalls, hI]
    simp [hE, streamConfigOf]
  · intro b2 hI
    constructor
    · rw [addStreamCalls_New B nc opts hv js b1 hJ, newStreamStep_addStreamCalls, hI]
    · rw [New_of_stream_ok B nc opts hv js b1 b2 _ hJ (newStreamStep_found B _ _ b1 b2 hI),
        newConsumerStep_calls]
      rfl

theorem ordersOptions_valid : (applyOptions ordersOptions).valid :=
  ⟨rfl, by decide, by decide⟩

/-- On a broker that holds nothing the lookup of "ORDERS" reports not-found and
`New` creates the stream "ORDERS" over "orders.>" in file storage, once. -/
theorem New_stream_lookup_or_create_witness :
    (applyOptions ordersOptions).valid ∧
    modelBroker.JetStream emptyBroker = (Except.ok ⟨0⟩, emptyBroker) ∧
    modelBroker.StreamInfo "ORDERS" emptyBroker = (some natsErrStreamNotFound, emptyBroker) ∧
    addStreamCalls (New modelBroker emptyBroker ordersOptions).calls =
      [{ Name := "ORDERS", Subjects := ["orders.>"], Storage := StorageType.FileStorage }] :=
  ⟨ordersOptions_valid, rfl, rfl,
    (New_stream_lookup_or_create modelBroker emptyBroker ordersOptions ordersOptions_valid
      ⟨0⟩ emptyBroker rfl).1 natsErrStreamNotFound emptyBroker rfl rfl⟩

/-- The ways `New` can go on a config that passes validation. -/
theorem New_cases {σ β : Type} (B : Broker β) (nc : β) (opts : List (WorkerOption σ))
    (hv : (applyOptions opts).valid) :
    (∃ err b1, B.JetStream nc = (Except.error err, b1) ∧
      New B nc opts = ⟨none, some err, b1, [Call.JetStream]⟩) ∨
    (∃ js b1 err b2 calls, B.JetStream nc = (Except.ok js, b1) ∧
      newStreamStep B (applyOptions opts) (workerOf (applyOptions opts) js) b1
        = (some err, b2, calls) ∧
      New B nc opts = ⟨none, some err, b2, Call.JetStream :: calls⟩) ∨
    (∃ js b1 b2 calls, B.JetStream nc = (Except.ok js, b1) ∧
      newStreamStep B (applyOptions opts) (workerOf (applyOptions opts) js) b1
        = (none, b2, calls) ∧
      New B nc opts =
        newConsumerStep B (applyOptions opts) (workerOf (applyOptions opts) js) b2
          (Call.JetStream :: calls)) := by
  rcases hJ : B.JetStream nc with ⟨err | js, b1⟩
  · exact Or.inl ⟨err, b1, rfl, New_of_JetStream_error B nc opts hv err b1 hJ⟩
  · rcases hS : newStreamStep B (applyOptions opts) (workerOf (applyOptions opts) js) b1
      with ⟨_ | e, b2, calls⟩
    · exact Or.inr (Or.inr ⟨js, b1, b2, calls, rfl, hS,
        New_of_stream_ok B nc opts hv js b1 b2 calls hJ hS⟩)
    · exact Or.inr (Or.inl ⟨js, b1, e, b2, calls, rfl, hS,
        New_of_stream_error B nc opts hv js b1 b2 e calls hJ hS⟩)

/-- A config `New` returns a worker for, or no error for, passes validation. -/
theorem valid_of_New {σ β : Type} (B : Broker β) (nc : β) (opts : List (WorkerOption σ))
    (h : (New B nc opts).worker ≠ none ∨ (New B nc opts).err = none) :
    (applyOptions opts).valid := by
  by_cases hh : (applyOptions opts).handler = none
  · rw [New_of_handler_none B nc opts hh] at h
    simp at h
  · by_cases hs : (applyOptions opts).streamName = ""
    · rw [New_of_streamName_empty B nc opts hh hs] at h
      simp at h
    · by_cases hf : (applyOptions opts).filterSubject = ""
      · rw [New_of_subject_empty B nc opts hh hs hf] at h
        simp at h
      · exact ⟨Option.isSome_iff_ne_none.mpr hh, hs, hf⟩

theorem newConsumerStep_worker {σ β : Type} (B : Broker β) (cfg : config σ) (w : Worker σ)
    (b : β) (calls : List Call) :
    ((newConsumerStep B cfg w b calls).err = none ↔
        (newConsumerStep B cfg w b calls).worker ≠ none) ∧
    (∀ w1, (newConsumerStep B cfg w b calls).worker = some w1 →
      w1.concurrency = w.concurrency ∧ w1.handler = w.handler ∧ w1.log = w.log ∧
      w1.js = w.js ∧
      (newConsumerStep B cfg w b calls).calls =
        calls ++ [Call.AddConsumer cfg.streamName (consumerConfigOf cfg),
          Call.PullSubscribe cfg.filterSubject (consumerNameOf cfg) cfg.streamName]) := by
  rw [newConsumerStep_eq]
  rcases hA : B.AddConsumer cfg.streamName (consumerConfigOf cfg) b with ⟨_ | e, b1⟩
  · rcases hP : B.PullSubscribe cfg.filterSubject (consumerNameOf cfg) cfg.streamName b1
      with ⟨_ | sub, b2⟩
    · simp [hP]
    · simp only [hP]
      refine ⟨by simp, ?_⟩
      intro w1 hw
      simp only [Option.some.injEq] at hw
      subst hw
      simp
  · simp

/-- What a run of `New` that returns a worker did. -/
theorem New_success {σ β : Type} (B : Broker β) (nc : β) (opts : List (WorkerOption σ))
    (w : Worker σ) (hw : (New B nc opts).worker = some w) :
    (applyOptions opts).valid ∧ (New B nc opts).err = none ∧
    w.concurrency = (applyOptions opts).concurrency ∧
    w.handler = (applyOptions opts).handler ∧
    ∃ calls, addConsumerCalls calls = [] ∧ pullSubscribeCalls calls = [] ∧
      (New B nc opts).calls =
        Call.JetStream :: calls ++
          [Call.AddConsumer (applyOptions opts).streamName (consumerConfigOf (applyOptions opts)),
            Call.PullSubscribe (applyOptions opts).filterSubject
              (consumerNameOf (applyOptions opts)) (applyOptions opts).streamName] := by
  have hv : (applyOptions opts).valid := valid_of_New B nc opts (Or.inl (by simp [hw]))
  refine ⟨hv, ?_⟩
  rcases New_cases B nc opts hv with ⟨err, b1, _, hN⟩ | ⟨js, b1, err, b2, calls, _, _, hN⟩ |
    ⟨js, b1, b2, calls, _, hS, hN⟩
  · rw [hN] at hw
    simp at hw
  · rw [hN] at hw
    simp at hw
  · rw [hN] at hw ⊢
    have hc := newConsumerStep_worker B (applyOptions opts) (workerOf (applyOptions opts) js)
      b2 (Call.JetStream :: calls)
    obtain ⟨h1, h2, _, _, h5⟩ := hc.2 w hw
    refine ⟨hc.1.mpr (by simp [hw]), h1, h2, calls, ?_, ?_, ?_⟩
    · have := (newStreamStep_no_consumer_calls B (applyOptions opts)
        (workerOf (applyOptions opts) js) b1).1
      rw [hS] at this
      exact this
    · have := (newStreamStep_no_consumer_calls B (applyOptions opts)
        (workerOf (applyOptions opts) js) b1).2
      rw [hS] at this
      exact this
    · rw [h5]

/-- The add-consumer and pull-subscribe calls of `New` on a config that passes
validation: add-consumer once, with the configured stream and consumer config, when
the stream step succeeds, and then pull-subscribe once when add-consumer succeeds;
none otherwise. -/
theorem New_consumer_calls {σ β : Type} (B : Broker β) (nc : β)
    (opts : List (WorkerOption σ)) (hv : (applyOptions opts).valid) :
    (addConsumerCalls (New B nc opts).calls = [] ∧
      pullSubscribeCalls (New B nc opts).calls = [] ∧ (New B nc opts).err ≠ none) ∨
    (addConsumerCalls (New B nc opts).calls =
        [((applyOptions opts).streamName, consumerConfigOf (applyOptions opts))] ∧
      ((pullSubscribeCalls (New B nc opts).calls = [] ∧ (New B nc opts).err ≠ none) ∨
        pullSubscribeCalls (New B nc opts).calls =
          [((applyOptions opts).filterSubject, consumerNameOf (applyOptions opts),
            (applyOptions opts).streamName)])) := by
  rcases New_cases B nc opts hv with ⟨err, b1, _, hN⟩ | ⟨js, b1, err, b2, calls, _, hS, hN⟩ |
    ⟨js, b1, b2, calls, _, hS, hN⟩
  · left
    rw [hN]
    simp [addConsumerCalls, pullSubscribeCalls]
  · left
    have h := newStreamStep_no_consumer_calls B (applyOptions opts)
      (workerOf (applyOptions opts) js) b1
    rw [hS] at h
    rw [hN]
    simpa [addConsumerCalls, pullSubscribeCalls] using h
  · right
    have h := newStreamStep_no_consumer_calls B (applyOptions opts)
      (workerOf (applyOptions opts) js) b1
    rw [hS] at h
    simp only [addConsumerCalls, pullSubscribeCalls] at h
    rw [hN, newConsumerStep_eq]
    rcases hA : B.AddConsumer (applyOptions opts).streamName
      (consumerConfigOf (applyOptions opts)) b2 with ⟨_ | e, b3⟩
    · rcases hP : B.PullSubscribe (applyOptions opts).filterSubject
        (consumerNameOf (applyOptions opts)) (applyOptions opts).streamName b3
        with ⟨_ | sub, b4⟩ <;>
        simp [hP, addConsumerCalls, pullSubscribeCalls, List.filterMap_append, h]
    · simp [addConsumerCalls, pullSubscribeCalls, List.filterMap_append, h]

/-! ### Construction: failures of provisioning -/

/-- C4: for a config that passes validation, a failure of a provisioning step makes
`New` return no worker and exactly the error of that step, and the failed call is
the last call `New` made: (1) the JetStream context cannot be obtained; (2) the
stream lookup fails with an error that is not not-found, and then no create-stream
call is made; (3) the stream is not found and create-stream fails; (4) the stream
step succeeds and add-consumer fails; (5) add-consumer succeeds and pull-subscribe
fails. -/
theorem New_provisioning_failure {σ β : Type} (B : Broker β) (nc : β)
    (opts : List (WorkerOption σ)) (hv : (applyOptions opts).valid) :
    (∀ err b1, B.JetStream nc = (Except.error err, b1) →
      New B nc opts = ⟨none, some err, b1, [Call.JetStream]⟩) ∧
    (∀ js b1 err b2, B.JetStream nc = (Except.ok js, b1) →
      B.StreamInfo (applyOptions opts).streamName b1 = (some err, b2) →
      errorsIs err natsErrStreamNotFound = false →
      New B nc opts =
        ⟨none, some err, b2, [Call.JetStream, Call.StreamInfo (applyOptions opts).streamName]⟩) ∧
    (∀ js b1 err b2 err2 b3, B.JetStream nc = (Except.ok js, b1) →
      B.StreamInfo (applyOptions opts).streamName b1 = (some err, b2) →
      errorsIs err natsErrStreamNotFound = true →
      B.AddStream (streamConfigOf (applyOptions opts)) b2 = (some err2, b3) →
      New B nc opts =
        ⟨none, some err2, b3,
          [Call.JetStream, Call.StreamInfo (applyOptions opts).streamName,
            Call.LogInfo (applyOptions opts).log "creating stream" "name"
              (applyOptions opts).streamName,
            Call.AddStream (streamConfigOf (applyOptions opts))]⟩) ∧
    (∀ js b1 b2 calls err b3, B.JetStream nc = (Except.ok js, b1) →
      newStreamStep B (applyOptions opts) (workerOf (applyOptions opts) js) b1
        = (none, b2, calls) →
      B.AddConsumer (applyOptions opts).streamName (consumerConfigOf (applyOptions opts)) b2
        = (some err, b3) →
      New B nc opts =
        ⟨none, some err, b3,
          Call.JetStream :: calls ++
            [Call.AddConsumer (applyOptions opts).streamName
              (consumerConfigOf (applyOptions opts))]⟩) ∧
    (∀ js b1 b2 calls b3 err b4, B.JetStream nc = (Except.ok js, b1) →
      newStreamStep B (applyOptions opts) (workerOf (applyOptions opts) js) b1
        = (none, b2, calls) →
      B.AddConsumer (applyOptions opts).streamName (consumerConfigOf (applyOptions opts)) b2
        = (none, b3) →
      B.PullSubscribe (applyOptions opts).filterSubject (consumerNameOf (applyOptions opts))
        (applyOptions opts).streamName b3 = (Except.error err, b4) →
      New B nc opts =
        ⟨none, some err, b4,
          Call.JetStream :: calls ++
            [Call.AddConsumer (applyOptions opts).streamName
                (consumerConfigOf (applyOptions opts)),
              Call.PullSubscribe (applyOptions opts).filterSubject
                (consumerNameOf (applyOptions opts)) (applyOptions opts).streamName]⟩) := by
  refine ⟨?_, ?_, ?_, ?_, ?_⟩
  · intro err b1 hJ
    exact New_of_JetStream_error B nc opts hv err b1 hJ
  · intro js b1 err b2 hJ hI hE
    exact New_of_stream_error B nc opts hv js b1 b2 err _ hJ
      (newStreamStep_other_error B _ _ b1 b2 err hI hE)
  · intro js b1 err b2 err2 b3 hJ hI hE hA
    have hS := newStreamStep_not_found B (applyOptions opts)
      (workerOf (applyOptions opts) js) b1 b2 err hI hE
    rw [hA] at hS
    exact New_of_stream_error B nc opts hv js b1 b3 err2 _ hJ hS
  · intro js b1 b2 calls err b3 hJ hS hA
    rw [New_of_stream_ok B nc opts hv js b1 b2 calls hJ hS, newConsumerStep_eq]
    simp [hA]
  · intro js b1 b2 calls b3 err b4 hJ hS hA hP
    rw [New_of_stream_ok B nc opts hv js b1 b2 calls hJ hS, newConsumerStep_eq]
    simp [hA, hP]

/-- On a broker without JetStream, `New` returns no worker and the error of
`nc.JetStream()`, and asks the broker nothing else; on a broker that holds the
consumer with another config, `New` returns no worker and the error of add-consumer,
and does not pull-subscribe. -/
theorem New_provisioning_failure_witness :
    (applyOptions ordersOptions).valid ∧
    New noJetStream () ordersOptions =
      ⟨none, some (other "nats: jetstream not enabled"), (), [Call.JetStream]⟩ ∧
    New modelBroker conflictingBroker ordersOptions =
      ⟨none, some natsErrConsumerNameAlreadyInUse, conflictingBroker,
        [Call.JetStream, Call.StreamInfo "ORDERS",
          Call.AddConsumer "ORDERS" (consumerConfigOf (applyOptions ordersOptions))]⟩ :=
  ⟨ordersOptions_valid,
    (New_provisioning_failure noJetStream () ordersOptions ordersOptions_valid).1
      (other "nats: jetstream not enabled") () rfl,
    (New_provisioning_failure modelBroker conflictingBroker ordersOptions
      ordersOptions_valid).2.2.2.1 ⟨0⟩ conflictingBroker conflictingBroker
      [Call.StreamInfo "ORDERS"] natsErrConsumerNameAlreadyInUse conflictingBroker
      rfl rfl rfl⟩

/-! ### Construction: the consumer and the subscription -/

theorem distinctNameOptions_valid : (applyOptions distinctNameOptions).valid :=
  ⟨rfl, by decide, by decide⟩

/-- C5, as stated, fails: with `WithConsumer("orders-consumer", "orders")` and
`WithDurable("orders-worker")` on a broker that accepts every request, `New` returns
a worker without error, adds the consumer with durable name "orders-worker" and
pull-subscribes with the consumer name "orders-consumer". -/
theorem New_subscribes_under_other_name :
    (applyOptions distinctNameOptions).valid ∧
    (New acceptAll () distinctNameOptions).err = none ∧
    (New acceptAll () distinctNameOptions).worker.bind Worker.sub =
      some ⟨"orders", "orders-consumer", "ORDERS"⟩ ∧
    (addConsumerCalls (New acceptAll () distinctNameOptions).calls).map
      (fun p => (p.1, p.2.Durable)) = [("ORDERS", "orders-worker")] ∧
    pullSubscribeCalls (New acceptAll () distinctNameOptions).calls =
      [("orders", "orders-consumer", "ORDERS")] ∧
    "orders-consumer" ≠ "orders-worker" :=
  ⟨distinctNameOptions_valid, rfl, rfl, rfl, rfl, by decide⟩

/-- C5, amended: for a config that passes validation, every pull-subscribe call of
`New` comes after exactly one add-consumer call, on the same stream, and the
consumer name it passes equals the durable name of that consumer config when the
configured consumer name is empty or equal to the durable name; when a distinct
non-empty consumer name is configured, pull-subscribe is given that name and not the
durable name. -/
theorem New_subscription_binding {σ β : Type} (B : Broker β) (nc : β)
    (opts : List (WorkerOption σ)) (hv : (applyOptions opts).valid) :
    ∀ p ∈ pullSubscribeCalls (New B nc opts).calls,
      (∃ ccfg, addConsumerCalls (New B nc opts).calls = [(p.2.2, ccfg)] ∧
        ccfg.Durable = (applyOptions opts).durableName ∧
        (((applyOptions opts).consumerName = "" ∨
            (applyOptions opts).consumerName = (applyOptions opts).durableName) →
          p.2.1 = ccfg.Durable) ∧
        (((applyOptions opts).consumerName ≠ "" ∧
            (applyOptions opts).consumerName ≠ (applyOptions opts).durableName) →
          p.2.1 = (applyOptions opts).consumerName ∧ p.2.1 ≠ ccfg.Durable)) := by
  intro p hp
  rcases New_consumer_calls B nc opts hv with ⟨_, h2, _⟩ | ⟨h1, ⟨h2, _⟩ | h2⟩
  · rw [h2] at hp
    simp at hp
  · rw [h2] at hp
    simp at hp
  · rw [h2] at hp
    simp only [List.mem_singleton] at hp
    subst hp
    refine ⟨consumerConfigOf (applyOptions opts), h1, rfl, ?_, ?_⟩
    · rintro (h | h)
      · simp [consumerNameOf, consumerConfigOf, h]
      · by_cases he : (applyOptions opts).consumerName = ""
        · simp [consumerNameOf, consumerConfigOf, he]
        · simp [consumerNameOf, consumerConfigOf, he, h]
    · rintro ⟨h, hd⟩
      simp [consumerNameOf, consumerConfigOf, h, hd]

/-- With the distinct consumer name "orders-consumer", the one pull-subscribe call is
on the stream of the one add-consumer call and carries "orders-consumer". -/
theorem New_subscription_binding_witness :
    (applyOptions distinctNameOptions).valid ∧
    (("orders", "orders-consumer", "ORDERS") ∈
      pullSubscribeCalls (New acceptAll () distinctNameOptions).calls) ∧
    ∃ ccfg, addConsumerCalls (New acceptAll () distinctNameOptions).calls = [("ORDERS", ccfg)] ∧
      ccfg.Durable = "orders-worker" :=
  ⟨distinctNameOptions_valid, List.mem_singleton.mpr rfl,
    (New_subscription_binding acceptAll () distinctNameOptions distinctNameOptions_valid
      ("orders", "orders-consumer", "ORDERS") (List.mem_singleton.mpr rfl)).elim
      (fun ccfg h => ⟨ccfg, h.1, h.2.1⟩)⟩

/-- C6, as stated, fails: with `WithConcurrency(0)` and `WithMaxDeliver(0)` on a
broker that accepts every request, `New` returns, without error, a worker of
concurrency 0 whose consumer was added with max-deliver 0. -/
theorem New_accepts_zero_bounds :
    (New acceptAll () zeroBoundsOptions).err = none ∧
    (New acceptAll () zeroBoundsOptions).worker.map Worker.concurrency = some 0 ∧
    (addConsumerCalls (New acceptAll () zeroBoundsOptions).calls).map
      (fun p => p.2.MaxDeliver) = [0] :=
  ⟨rfl, rfl, rfl⟩

/-- C6, amended: a worker that `New` returns has the configured concurrency, and
its consumer was added, once, with the configured max-deliver; so the worker has
concurrency >= 1 exactly when the configured concurrency is >= 1, and was
provisioned with max-deliver >= 1 exactly when the configured max-deliver is. -/
theorem New_worker_bounds {σ β : Type} (B : Broker β) (nc : β)
    (opts : List (WorkerOption σ)) (w : Worker σ)
    (hw : (New B nc opts).worker = some w) :
    (New B nc opts).err = none ∧
    w.concurrency = (applyOptions opts).concurrency ∧
    (addConsumerCalls (New B nc opts).calls).map (fun p => p.2.MaxDeliver)
      = [(applyOptions opts).maxDeliver] ∧
    (1 ≤ w.concurrency ↔ 1 ≤ (applyOptions opts).concurrency) ∧
    ((∀ p ∈ addConsumerCalls (New B nc opts).calls, 1 ≤ p.2.MaxDeliver) ↔
      1 ≤ (applyOptions opts).maxDeliver) := by
  obtain ⟨hv, he, hc, _, _⟩ := New_success B nc opts w hw
  have hA : addConsumerCalls (New B nc opts).calls =
      [((applyOptions opts).streamName, consumerConfigOf (applyOptions opts))] := by
    rcases New_consumer_calls B nc opts hv with ⟨_, _, h3⟩ | ⟨h1, _⟩
    · exact absurd he h3
    · exact h1
  refine ⟨he, hc, ?_, by rw [hc], ?_⟩
  · rw [hA]
    rfl
  · rw [hA]
    simp [consumerConfigOf]

/-- With no option for either bound, the worker has concurrency 1 and its consumer
max-deliver 1. -/
theorem New_worker_bounds_witness :
    (New acceptAll () ordersOptions).worker = some ordersWorker ∧
    ordersWorker.concurrency = 1 ∧
    (addConsumerCalls (New acceptAll () ordersOptions).calls).map (fun p => p.2.MaxDeliver)
      = [1] :=
  ⟨rfl, (New_worker_bounds acceptAll () ordersOptions ordersWorker rfl).2.1,
    (New_worker_bounds acceptAll () ordersOptions ordersWorker rfl).2.2.1⟩

/-- C8: for a config that passes validation, `New` calls add-consumer exactly once
when its stream step succeeds, and so whenever it returns no error; the call is on
the configured stream, with the configured durable name, the explicit ack policy,
and the configured ack-wait, max-deliver, subject as filter subject, delivery policy
and replay policy. `New` never makes a second or a different add-consumer call. -/
theorem New_adds_consumer_once {σ β : Type} (B : Broker β) (nc : β)
    (opts : List (WorkerOption σ)) (hv : (applyOptions opts).valid) :
    (∀ js b1 b2 calls, B.JetStream nc = (Except.ok js, b1) →
      newStreamStep B (applyOptions opts) (workerOf (applyOptions opts) js) b1
        = (none, b2, calls) →
      addConsumerCalls (New B nc opts).calls =
        [((applyOptions opts).streamName,
          { Durable := (applyOptions opts).durableName
            AckPolicy := AckPolicy.AckExplicitPolicy
            AckWait := (applyOptions opts).ackWait
            MaxDeliver := (applyOptions opts).maxDeliver
            FilterSubject := (applyOptions opts).filterSubject
            DeliverPolicy := (applyOptions opts).deliverPolicy
            ReplayPolicy := (applyOptions opts).replayPolicy })]) ∧
    ((New B nc opts).err = none →
      addConsumerCalls (New B nc opts).calls =
        [((applyOptions opts).streamName,
          { Durable := (applyOptions opts).durableName
            AckPolicy := AckPolicy.AckExplicitPolicy
            AckWait := (applyOptions opts).ackWait
            MaxDeliver := (applyOptions opts).maxDeliver
            FilterSubject := (applyOptions opts).filterSubject
            DeliverPolicy := (applyOptions opts).deliverPolicy
            ReplayPolicy := (applyOptions opts).replayPolicy })]) ∧
    (∀ p ∈ addConsumerCalls (New B nc opts).calls,
      p = ((applyOptions opts).streamName,
          { Durable := (applyOptions opts).durableName
            AckPolicy := AckPolicy.AckExplicitPolicy
            AckWait := (applyOptions opts).ackWait
            MaxDeliver := (applyOptions opts).maxDeliver
            FilterSubject := (applyOptions opts).filterSubject
            DeliverPolicy := (applyOptions opts).deliverPolicy
            ReplayPolicy := (applyOptions opts).replayPolicy })) ∧
    (addConsumerCalls (New B nc opts).calls).length ≤ 1 := by
  refine ⟨?_, ?_, ?_, ?_⟩
  · intro js b1 b2 calls hJ hS
    have h := newStreamStep_no_consumer_calls B (applyOptions opts)
      (workerOf (applyOptions opts) js) b1
    rw [hS] at h
    simp only [addConsumerCalls] at h
    rw [New_of_stream_ok B nc opts hv js b1 b2 calls hJ hS, newConsumerStep_calls]
    cases (B.AddConsumer (applyOptions opts).streamName
      (consumerConfigOf (applyOptions opts)) b2).1 <;>
      simp [addConsumerCalls, List.filterMap_append, h.1, consumerConfigOf]
  · intro he
    rcases New_consumer_calls B nc opts hv with ⟨_, _, h3⟩ | ⟨h1, _⟩
    · exact absurd he h3
    · exact h1
  · intro p hp
    rcases New_consumer_calls B nc opts hv with ⟨h1, _, _⟩ | ⟨h1, _⟩
    · rw [h1] at hp
      simp at hp
    · rw [h1] at hp
      exact List.mem_singleton.mp hp
  · rcases New_consumer_calls B nc opts hv with ⟨h1, _, _⟩ | ⟨h1, _⟩ <;> simp [h1]

/-- On a broker that holds nothing, `New` adds the consumer "orders-worker" on
"ORDERS" once, with the explicit ack policy and the default values. -/
theorem New_adds_consumer_once_witness :
    (applyOptions ordersOptions).valid ∧
    (New modelBroker emptyBroker ordersOptions).err = none ∧
    addConsumerCalls (New modelBroker emptyBroker ordersOptions).calls =
      [("ORDERS",
        { Durable := "orders-worker"
          AckPolicy := AckPolicy.AckExplicitPolicy
          AckWait := 30000000000
          MaxDeliver := 1
          FilterSubject := "orders"
          DeliverPolicy := DeliverPolicy.DeliverAllPolicy
          ReplayPolicy := ReplayPolicy.ReplayInstantPolicy })] :=
  ⟨ordersOptions_valid, rfl,
    (New_adds_consumer_once modelBroker emptyBroker ordersOptions ordersOptions_valid).2.1 rfl⟩

/-- C10: for a config that passes validation, `New` pull-subscribes, once, when
add-consumer has succeeded, and so whenever it returns no error; the consumer name
of every pull-subscribe call of `New` is the durable name when the configured
consumer name is empty, and the configured consumer name when it is not. -/
theorem New_pull_subscribe_name {σ β : Type} (B : Broker β) (nc : β)
    (opts : List (WorkerOption σ)) (hv : (applyOptions opts).valid) :
    (∀ js b1 b2 calls b3, B.JetStream nc = (Except.ok js, b1) →
      newStreamStep B (applyOptions opts) (workerOf (applyOptions opts) js) b1
        = (none, b2, calls) →
      B.AddConsumer (applyOptions opts).streamName (consumerConfigOf (applyOptions opts)) b2
        = (none, b3) →
      pullSubscribeCalls (New B nc opts).calls =
        [((applyOptions opts).filterSubject,
          (if (applyOptions opts).consumerName = "" then (applyOptions opts).durableName
            else (applyOptions opts).consumerName),
          (applyOptions opts).streamName)]) ∧
    ((New B nc opts).err = none → (pullSubscribeCalls (New B nc opts).calls).length = 1) ∧
    (∀ p ∈ pullSubscribeCalls (New B nc opts).calls,
      ((applyOptions opts).consumerName = "" → p.2.1 = (applyOptions opts).durableName) ∧
      ((applyOptions opts).consumerName ≠ "" → p.2.1 = (applyOptions opts).consumerName)) := by
  refine ⟨?_, ?_, ?_⟩
  · intro js b1 b2 calls b3 hJ hS hA
    have h := newStreamStep_no_consumer_calls B (applyOptions opts)
      (workerOf (applyOptions opts) js) b1
    rw [hS] at h
    simp only [pullSubscribeCalls] at h
    rw [New_of_stream_ok B nc opts hv js b1 b2 calls hJ hS, newConsumerStep_calls, hA]
    simp [pullSubscribeCalls, List.filterMap_append, h.2, consumerNameOf]
  · intro he
    rcases New_consumer_calls B nc opts hv with ⟨_, _, h3⟩ | ⟨_, ⟨_, h3⟩ | h2⟩
    · exact absurd he h3
    · exact absurd he h3
    · rw [h2]
      rfl
  · intro p hp
    rcases New_consumer_calls B nc opts hv with ⟨_, h2, _⟩ | ⟨_, ⟨h2, _⟩ | h2⟩
    · rw [h2] at hp
      simp at hp
    · rw [h2] at hp
      simp at hp
    · rw [h2] at hp
      simp only [List.mem_singleton] at hp
      subst hp
      constructor
      · intro h
        simp [consumerNameOf, h]
      · intro h
        simp [consumerNameOf, h]

/-- With no consumer name supplied, `New` pull-subscribes with the durable name
"orders-worker". -/
theorem New_pull_subscribe_name_witness :
    (applyOptions ordersOptions).valid ∧
    (applyOptions ordersOptions).consumerName = "" ∧
    pullSubscribeCalls (New acceptAll () ordersOptions).calls =
      [("orders", "orders-worker", "ORDERS")] :=
  ⟨ordersOptions_valid, rfl,
    (New_pull_subscribe_name acceptAll () ordersOptions ordersOptions_valid).1
      ⟨0⟩ () () [Call.StreamInfo "ORDERS"] () rfl rfl rfl⟩

/-! ### Construction: defaults -/

theorem New_calls_of_not_valid {σ β : Type} (B : Broker β) (nc : β)
    (opts : List (WorkerOption σ)) (hv : ¬ (applyOptions opts).valid) :
    (New B nc opts).calls = [] := by
  by_cases hh : (applyOptions opts).handler = none
  · rw [New_of_handler_none B nc opts hh]
  · by_cases hs : (applyOptions opts).streamName = ""
    · rw [New_of_streamName_empty B nc opts hh hs]
    · by_cases hf : (applyOptions opts).filterSubject = ""
      · rw [New_of_subject_empty B nc opts hh hs hf]
      · exact absurd ⟨Option.isSome_iff_ne_none.mpr hh, hs, hf⟩ hv

/-- Every create-stream call of `New` carries the stream config of the config. -/
theorem mem_addStreamCalls_New {σ β : Type} (B : Broker β) (nc : β)
    (opts : List (WorkerOption σ)) (s : StreamConfig)
    (hs : s ∈ addStreamCalls (New B nc opts).calls) :
    s = streamConfigOf (applyOptions opts) := by
  by_cases hv : (applyOptions opts).valid
  · rcases hJ : B.JetStream nc with ⟨err | js, b1⟩
    · rw [New_of_JetStream_error B nc opts hv err b1 hJ] at hs
      simp [addStreamCalls] at hs
    · rw [addStreamCalls_New B nc opts hv js b1 hJ, newStreamStep_addStreamCalls] at hs
      rcases hI : (B.StreamInfo (applyOptions opts).streamName b1).1 with _ | e
      · rw [hI] at hs
        simp at hs
      · rw [hI] at hs
        by_cases hE : errorsIs e natsErrStreamNotFound = true
        · simpa [hE] using hs
        · simp [hE] at hs
  · rw [New_calls_of_not_valid B nc opts hv] at hs
    simp [addStreamCalls] at hs

/-- Every add-consumer call of `New` carries the consumer config of the config. -/
theorem mem_addConsumerCalls_New {σ β : Type} (B : Broker β) (nc : β)
    (opts : List (WorkerOption σ)) (p : String × ConsumerConfig)
    (hp : p ∈ addConsumerCalls (New B nc opts).calls) :
    p = ((applyOptions opts).streamName, consumerConfigOf (applyOptions opts)) := by
  by_cases hv : (applyOptions opts).valid
  · rcases New_consumer_calls B nc opts hv with ⟨h1, _, _⟩ | ⟨h1, _⟩
    · rw [h1] at hp
      simp at hp
    · rw [h1] at hp
      exact List.mem_singleton.mp hp
  · rw [New_calls_of_not_valid B nc opts hv] at hp
    simp [addConsumerCalls] at hp

theorem tunables_of_nonOverriding {σ : Type} (o : WorkerOption σ) (ho : NonOverriding o)
    (c : config σ) : (o c).tunables = c.tunables := by
  cases ho <;> rfl

theorem tunables_foldl {σ : Type} (opts : List (WorkerOption σ))
    (hopts : ∀ o ∈ opts, NonOverriding o) (c : config σ) :
    (opts.foldl (fun cfg opt => opt cfg) c).tunables = c.tunables := by
  induction opts generalizing c with
  | nil => rfl
  | cons o rest ih =>
    rw [List.foldl_cons, ih (fun o2 h2 => hopts o2 (List.mem_cons_of_mem o h2)),
      tunables_of_nonOverriding o (hopts o (List.mem_cons_self o rest))]

/-- C9: when `New` is called with options that name none of the six defaulted
fields (the required `WithHandler`, `WithStream`, `WithConsumer`, and `WithDurable`,
`WithLogger`), the config has concurrency 1, ack-wait 30 seconds, max-deliver 1,
delivery policy all, replay policy instant and storage file, and `New` uses them: a
returned worker has concurrency 1, every add-consumer call has those four consumer
values, every create-stream call has file storage. And each `With*` option added at
the end of any option list changes only the field or fields it names. -/
theorem New_defaults {σ β : Type} (B : Broker β) (nc : β) (opts : List (WorkerOption σ))
    (hopts : ∀ o ∈ opts, NonOverriding o) :
    ((applyOptions opts).tunables =
      (1, 30000000000, 1, DeliverPolicy.DeliverAllPolicy, ReplayPolicy.ReplayInstantPolicy,
        StorageType.FileStorage)) ∧
    (∀ w, (New B nc opts).worker = some w → w.concurrency = 1) ∧
    (∀ p ∈ addConsumerCalls (New B nc opts).calls,
      p.2.AckWait = 30000000000 ∧ p.2.MaxDeliver = 1 ∧
      p.2.DeliverPolicy = DeliverPolicy.DeliverAllPolicy ∧
      p.2.ReplayPolicy = ReplayPolicy.ReplayInstantPolicy) ∧
    (∀ s ∈ addStreamCalls (New B nc opts).calls, s.Storage = StorageType.FileStorage) ∧
    (∀ pre : List (WorkerOption σ),
      (∀ name, applyOptions (pre ++ [WithStream name]) =
        { applyOptions pre with streamName := name }) ∧
      (∀ consumer subject, applyOptions (pre ++ [WithConsumer consumer subject]) =
        { applyOptions pre with consumerName := consumer, filterSubject := subject }) ∧
      (∀ name, applyOptions (pre ++ [WithDurable name]) =
        { applyOptions pre with durableName := name }) ∧
      (∀ h, applyOptions (pre ++ [WithHandler h]) = { applyOptions pre with handler := h }) ∧
      (∀ n, applyOptions (pre ++ [WithConcurrency n]) =
        { applyOptions pre with concurrency := n }) ∧
      (∀ d, applyOptions (pre ++ [WithAckWait d]) = { applyOptions pre with ackWait := d }) ∧
      (∀ n, applyOptions (pre ++ [WithMaxDeliver n]) =
        { applyOptions pre with maxDeliver := n }) ∧
      (∀ l, applyOptions (pre ++ [WithLogger l]) = { applyOptions pre with log := l }) ∧
      (∀ st, applyOptions (pre ++ [WithStorage st]) = { applyOptions pre with storage := st })) := by
  have ht : (applyOptions opts).tunables =
      (1, 30000000000, 1, DeliverPolicy.DeliverAllPolicy, ReplayPolicy.ReplayInstantPolicy,
        StorageType.FileStorage) := by
    unfold applyOptions
    rw [tunables_foldl opts hopts]
    rfl
  simp only [config.tunables, Prod.mk.injEq] at ht
  obtain ⟨h1, h2, h3, h4, h5, h6⟩ := ht
  refine ⟨by simp [config.tunables, h1, h2, h3, h4, h5, h6], ?_, ?_, ?_, ?_⟩
  · intro w hw
    rw [(New_success B nc opts w hw).2.2.1, h1]
  · intro p hp
    rw [mem_addConsumerCalls_New B nc opts p hp]
    exact ⟨h2, h3, h4, h5⟩
  · intro s hs
    rw [mem_addStreamCalls_New B nc opts s hs]
    exact h6
  · intro pre
    simp [applyOptions, List.foldl_append, WithStream, WithConsumer, WithDurable, WithHandler,
      WithConcurrency, WithAckWait, WithMaxDeliver, WithLogger, WithStorage]

theorem ordersOptions_nonOverriding : ∀ o ∈ ordersOptions, NonOverriding o := by
  intro o ho
  simp only [ordersOptions, List.mem_cons, List.mem_singleton, List.not_mem_nil, or_false] at ho
  rcases ho with h | h | h | h <;> subst h
  · exact NonOverriding.handler _
  · exact NonOverriding.stream _
  · exact NonOverriding.consumer _ _
  · exact NonOverriding.durable _

/-- With the required options and a durable name only, the worker `New` returns has
concurrency 1 and the config has the six defaults. -/
theorem New_defaults_witness :
    (∀ o ∈ ordersOptions, NonOverriding o) ∧
    (New acceptAll () ordersOptions).worker = some ordersWorker ∧
    ordersWorker.concurrency = 1 ∧
    (applyOptions ordersOptions).tunables =
      (1, 30000000000, 1, DeliverPolicy.DeliverAllPolicy, ReplayPolicy.ReplayInstantPolicy,
        StorageType.FileStorage) :=
  ⟨ordersOptions_nonOverriding, rfl,
    (New_defaults acceptAll () ordersOptions ordersOptions_nonOverriding).2.1 ordersWorker rfl,
    (New_defaults acceptAll () ordersOptions ordersOptions_nonOverriding).1⟩

/-! ### Provisioning over the model broker -/

theorem model_JetStream (b : BrokerState) :
    modelBroker.JetStream b = (Except.ok ⟨0⟩, b) := rfl

/-- The stream step on the model broker never fails and leaves the stream
registered; when the stream is registered already it asks for nothing but the
lookup and changes nothing. -/
theorem model_newStreamStep {σ : Type} (cfg : config σ) (w : Worker σ) (b : BrokerState) :
    (newStreamStep modelBroker cfg w b).1 = none ∧
    (newStreamStep modelBroker cfg w b).2.1.hasStream cfg.streamName = true ∧
    (b.hasStream cfg.streamName = true →
      newStreamStep modelBroker cfg w b = (none, b, [Call.StreamInfo cfg.streamName])) := by
  by_cases hS : b.hasStream cfg.streamName = true
  · have hI : modelBroker.StreamInfo cfg.streamName b = (none, b) := by
      simp [modelBroker, hS]
    rw [newStreamStep_found modelBroker cfg w b b hI]
    exact ⟨rfl, hS, fun _ => rfl⟩
  · have hI : modelBroker.StreamInfo cfg.streamName b = (some natsErrStreamNotFound, b) := by
      simp [modelBroker, hS]
    have hN : b.streams.find? (fun s => decide (s.Name = (streamConfigOf cfg).Name)) = none := by
      rw [List.find?_eq_none]
      intro s hs hname
      apply hS
      simp only [BrokerState.hasStream, List.any_eq_true]
      exact ⟨s, hs, hname⟩
    have hA : modelBroker.AddStream (streamConfigOf cfg) b =
        (none, { b with streams := b.streams ++ [streamConfigOf cfg] }) := by
      simp [modelBroker, hN]
    rw [newStreamStep_not_found modelBroker cfg w b b natsErrStreamNotFound hI (by decide), hA]
    refine ⟨rfl, ?_, fun h => absurd h hS⟩
    simp [BrokerState.hasStream, streamConfigOf]

theorem findConsumer_append (b : BrokerState) (extra : List (String × ConsumerConfig))
    (stream durable : String) (x : String × ConsumerConfig)
    (h : b.findConsumer stream durable = some x) :
    BrokerState.findConsumer { b with consumers := b.consumers ++ extra } stream durable
      = some x := by
  simp only [BrokerState.findConsumer] at h ⊢
  rw [List.find?_append, h]
  rfl

theorem findConsumer_append_new (b : BrokerState) (stream : String) (ccfg : ConsumerConfig)
    (h : b.findConsumer stream ccfg.Durable = none) :
    BrokerState.findConsumer { b with consumers := b.consumers ++ [(stream, ccfg)] } stream
      ccfg.Durable = some (stream, ccfg) := by
  simp only [BrokerState.findConsumer] at h ⊢
  rw [List.find?_append, h]
  simp

theorem findConsumer_some (b : BrokerState) (stream durable : String)
    (old : String × ConsumerConfig) (h : b.findConsumer stream durable = some old) :
    old.1 = stream ∧ old.2.Durable = durable := by
  simp only [BrokerState.findConsumer] at h
  have hp := List.find?_some h
  simpa using hp

/-- Add-consumer on a broker that holds the consumer with this very config succeeds
and changes nothing. -/
theorem model_AddConsumer_found (stream : String) (ccfg : ConsumerConfig) (b : BrokerState)
    (hS : b.hasStream stream = true) (hd : ccfg.Durable ≠ "")
    (hF : b.findConsumer stream ccfg.Durable = some (stream, ccfg)) :
    modelBroker.AddConsumer stream ccfg b = (none, b) := by
  simp [modelBroker, hS, hd, hF]

/-- After a successful add-consumer with a durable name the stream is there, the
streams are as before, the consumers of before are still there, in front, and the
consumer of that name is held with the config given. -/
theorem model_AddConsumer_ok (stream : String) (ccfg : ConsumerConfig) (b : BrokerState)
    (hd : ccfg.Durable ≠ "") (hok : (modelBroker.AddConsumer stream ccfg b).1 = none) :
    b.hasStream stream = true ∧
    (modelBroker.AddConsumer stream ccfg b).2.streams = b.streams ∧
    (modelBroker.AddConsumer stream ccfg b).2.findConsumer stream ccfg.Durable
      = some (stream, ccfg) := by
  by_cases hS : b.hasStream stream = true
  · refine ⟨hS, ?_⟩
    cases hF : b.findConsumer stream ccfg.Durable with
    | none =>
      have hA : modelBroker.AddConsumer stream ccfg b
          = (none, { b with consumers := b.consumers ++ [(stream, ccfg)] }) := by
        simp [modelBroker, hS, hd, hF]
      rw [hA]
      exact ⟨rfl, findConsumer_append_new b stream ccfg hF⟩
    | some old =>
      by_cases hE : old.2 = ccfg
      · have hA : modelBroker.AddConsumer stream ccfg b = (none, b) := by
          simp [modelBroker, hS, hd, hF, hE]
        rw [hA]
        refine ⟨rfl, ?_⟩
        have h1 := (findConsumer_some b stream ccfg.Durable old hF).1
        have : old = (stream, ccfg) := Prod.ext h1 hE
        rw [← this]
        exact hF
      · have hA : modelBroker.AddConsumer stream ccfg b
            = (some natsErrConsumerNameAlreadyInUse, b) := by
          simp [modelBroker, hS, hd, hF, hE]
        rw [hA] at hok
        simp at hok
  · have hA : modelBroker.AddConsumer stream ccfg b = (some natsErrStreamNotFound, b) := by
      simp [modelBroker, hS]
    rw [hA] at hok
    simp at hok

/-- After a successful pull-subscribe under a name that is not empty the streams are
as before, the consumers of before are still there, in front, and the same
pull-subscribe succeeds again and changes nothing. -/
theorem model_PullSubscribe_ok (subject durable stream : String) (b b2 : BrokerState)
    (sub : Subscription) (hd : durable ≠ "")
    (hP : modelBroker.PullSubscribe subject durable stream b = (Except.ok sub, b2)) :
    b2.streams = b.streams ∧ (∃ extra, b2 = { b with consumers := b.consumers ++ extra }) ∧
    modelBroker.PullSubscribe subject durable stream b2 = (Except.ok sub, b2) := by
  by_cases hS : b.hasStream stream = true
  · cases hF : b.findConsumer stream durable with
    | none =>
      have hA : modelBroker.PullSubscribe subject durable stream b
          = (Except.ok ⟨subject, durable, stream⟩,
              { b with consumers :=
                  b.consumers ++ [(stream, pullConsumerConfig durable subject)] }) := by
        simp [modelBroker, hS, hd, hF]
      rw [hA] at hP
      simp only [Prod.mk.injEq, Except.ok.injEq] at hP
      obtain ⟨hsub, hb⟩ := hP
      subst hb
      subst hsub
      refine ⟨rfl, ⟨_, rfl⟩, ?_⟩
      have hF2 : BrokerState.findConsumer
          { b with consumers := b.consumers ++ [(stream, pullConsumerConfig durable subject)] }
          stream durable = some (stream, pullConsumerConfig durable subject) :=
        findConsumer_append_new b stream (pullConsumerConfig durable subject) hF
      have hS2 : BrokerState.hasStream
          { b with consumers := b.consumers ++ [(stream, pullConsumerConfig durable subject)] }
          stream = true := hS
      have hfs : (pullConsumerConfig durable subject).FilterSubject = subject := rfl
      simp [modelBroker, hS2, hd, hF2, hfs]
    | some old =>
      by_cases hE : old.2.FilterSubject = "" ∨ old.2.FilterSubject = subject
      · have hA : modelBroker.PullSubscribe subject durable stream b
            = (Except.ok ⟨subject, durable, stream⟩, b) := by
          simp [modelBroker, hS, hd, hF, hE]
        rw [hA] at hP
        simp only [Prod.mk.injEq, Except.ok.injEq] at hP
        obtain ⟨hsub, hb⟩ := hP
        subst hb
        subst hsub
        exact ⟨rfl, ⟨[], by simp⟩, hA⟩
      · have hA : modelBroker.PullSubscribe subject durable stream b
            = (Except.error (other "nats: subject does not match consumer"), b) := by
          simp [modelBroker, hS, hd, hF, hE]
        rw [hA] at hP
        simp at hP
  · have hA : modelBroker.PullSubscribe subject durable stream b
        = (Except.error natsErrStreamNotFound, b) := by
      simp [modelBroker, hS]
    rw [hA] at hP
    simp at hP

theorem consumerNameOf_ne_empty {σ : Type} (cfg : config σ) (hd : cfg.durableName ≠ "") :
    consumerNameOf cfg ≠ "" := by
  unfold consumerNameOf
  by_cases hc : cfg.consumerName = ""
  · simpa [hc] using hd
  · simp [hc]

/-- The consumer step on the model broker for a config with a durable name: when it
succeeds, the same step run again from the broker it left succeeds and leaves the
broker as it was, and the streams are those of before. -/
theorem model_newConsumerStep_idem {σ : Type} (cfg : config σ) (w w2 : Worker σ)
    (b : BrokerState) (calls calls2 : List Call) (hd : cfg.durableName ≠ "")
    (hok : (newConsumerStep modelBroker cfg w b calls).err = none) :
    (newConsumerStep modelBroker cfg w2 (newConsumerStep modelBroker cfg w b calls).broker
        calls2).err = none ∧
    (newConsumerStep modelBroker cfg w2 (newConsumerStep modelBroker cfg w b calls).broker
        calls2).broker = (newConsumerStep modelBroker cfg w b calls).broker ∧
    (newConsumerStep modelBroker cfg w b calls).broker.streams = b.streams := by
  have hdc : (consumerConfigOf cfg).Durable ≠ "" := hd
  have hcn := consumerNameOf_ne_empty cfg hd
  rw [newConsumerStep_eq modelBroker cfg w b calls] at hok ⊢
  rcases hA : modelBroker.AddConsumer cfg.streamName (consumerConfigOf cfg) b with ⟨_ | e, b1⟩
  · obtain ⟨a1, a2, a3⟩ := model_AddConsumer_ok cfg.streamName (consumerConfigOf cfg) b hdc
      (by rw [hA])
    rw [hA] at a2 a3
    simp only at a2 a3
    rw [hA] at hok
    simp only at hok
    rcases hP : modelBroker.PullSubscribe cfg.filterSubject (consumerNameOf cfg)
      cfg.streamName b1 with ⟨err | sub, b2⟩
    · rw [hP] at hok
      simp at hok
    · obtain ⟨p1, ⟨extra, p2⟩, p3⟩ := model_PullSubscribe_ok cfg.filterSubject
        (consumerNameOf cfg) cfg.streamName b1 b2 sub hcn hP
      have hS2 : b2.hasStream cfg.streamName = true := by
        simp only [BrokerState.hasStream] at a1 ⊢
        rw [p1, a2]
        exact a1
      have hF2 : b2.findConsumer cfg.streamName (consumerConfigOf cfg).Durable
          = some (cfg.streamName, consumerConfigOf cfg) := by
        rw [p2]
        exact findConsumer_append b1 extra _ _ _ a3
      have hA2 := model_AddConsumer_found cfg.streamName (consumerConfigOf cfg) b2 hS2 hdc hF2
      simp only [hP]
      rw [newConsumerStep_eq]
      simp only [hA2, p3]
      exact ⟨trivial, trivial, p1.trans a2⟩
  · rw [hA] at hok
    simp at hok

/-- C7, as stated, fails. With the required options only, so without a durable
name, on a broker that holds nothing, both runs of `New` return no error, and the
broker holds two consumers after the first run and four after the second. And with
a durable name on a broker that holds that consumer with another config, the second
run returns an error, as the first did. -/
theorem New_provisioning_not_idempotent :
    (applyOptions noDurableOptions).valid ∧
    (New modelBroker emptyBroker noDurableOptions).err = none ∧
    (New modelBroker emptyBroker noDurableOptions).broker.consumers.length = 2 ∧
    (New modelBroker (New modelBroker emptyBroker noDurableOptions).broker
      noDurableOptions).err = none ∧
    (New modelBroker (New modelBroker emptyBroker noDurableOptions).broker
      noDurableOptions).broker.consumers.length = 4 ∧
    (New modelBroker (New modelBroker emptyBroker noDurableOptions).broker
      noDurableOptions).broker ≠ (New modelBroker emptyBroker noDurableOptions).broker ∧
    (applyOptions ordersOptions).valid ∧
    (New modelBroker (New modelBroker conflictingBroker ordersOptions).broker
      ordersOptions).err = some natsErrConsumerNameAlreadyInUse :=
  ⟨⟨rfl, by decide, by decide⟩, rfl, rfl, rfl, rfl, by decide, ordersOptions_valid, rfl⟩

/-- C7, amended: over the model broker, in which create-stream registers the stream
and add-consumer with an identical config succeeds, provisioning is idempotent for a
config that passes validation and has a durable name, once the first run has
succeeded: from any broker state, when `New` returns no error and is run again from
the broker it left, the second run makes no create-stream call, returns no error,
and leaves the streams and consumers of the broker as the first run left them. -/
theorem New_provisioning_idempotent {σ : Type} (b0 : BrokerState)
    (opts : List (WorkerOption σ)) (hv : (applyOptions opts).valid)
    (hd : (applyOptions opts).durableName ≠ "")
    (h1 : (New modelBroker b0 opts).err = none) :
    addStreamCalls (New modelBroker (New modelBroker b0 opts).broker opts).calls = [] ∧
    (New modelBroker (New modelBroker b0 opts).broker opts).err = none ∧
    (New modelBroker (New modelBroker b0 opts).broker opts).broker
      = (New modelBroker b0 opts).broker := by
  obtain ⟨s1, s2, _⟩ := model_newStreamStep (applyOptions opts)
    (workerOf (applyOptions opts) ⟨0⟩) b0
  rcases hS : newStreamStep modelBroker (applyOptions opts)
    (workerOf (applyOptions opts) ⟨0⟩) b0 with ⟨e, b1, calls⟩
  rw [hS] at s1 s2
  simp only at s1 s2
  subst s1
  have hN1 := New_of_stream_ok modelBroker b0 opts hv ⟨0⟩ b0 b1 calls (model_JetStream b0) hS
  rw [hN1] at h1
  obtain ⟨k1, k2, k3⟩ := model_newConsumerStep_idem (applyOptions opts)
    (workerOf (applyOptions opts) ⟨0⟩) (workerOf (applyOptions opts) ⟨0⟩) b1
    (Call.JetStream :: calls) [Call.JetStream, Call.StreamInfo (applyOptions opts).streamName]
    hd h1
  have hhas : (New modelBroker b0 opts).broker.hasStream (applyOptions opts).streamName
      = true := by
    rw [hN1]
    simp only [BrokerState.hasStream] at s2 ⊢
    rw [k3]
    exact s2
  have hS2 := (model_newStreamStep (applyOptions opts) (workerOf (applyOptions opts) ⟨0⟩)
    (New modelBroker b0 opts).broker).2.2 hhas
  have hN2 := New_of_stream_ok modelBroker (New modelBroker b0 opts).broker opts hv ⟨0⟩
    (New modelBroker b0 opts).broker (New modelBroker b0 opts).broker
    [Call.StreamInfo (applyOptions opts).streamName] (model_JetStream _) hS2
  rw [hN2]
  refine ⟨?_, ?_, ?_⟩
  · rw [addStreamCalls_newConsumerStep]
    rfl
  · rw [hN1]
    exact k1
  · rw [hN1]
    exact k2

/-- On a broker that holds nothing the first run creates the stream and the
consumer; the second run creates no stream, returns no error and leaves the broker
as it was. The same holds with a consumer name that differs from the durable name,
where the first run leaves two consumers. -/
theorem New_provisioning_idempotent_witness :
    (applyOptions ordersOptions).valid ∧
    (applyOptions ordersOptions).durableName ≠ "" ∧
    (New modelBroker emptyBroker ordersOptions).err = none ∧
    ((New modelBroker emptyBroker ordersOptions).broker.streams.map StreamConfig.Name
      = ["ORDERS"]) ∧
    ((New modelBroker emptyBroker ordersOptions).broker.consumers.map
      (fun p => (p.1, p.2.Durable)) = [("ORDERS", "orders-worker")]) ∧
    (addStreamCalls
      (New modelBroker (New modelBroker emptyBroker ordersOptions).broker ordersOptions).calls
      = [] ∧
    (New modelBroker (New modelBroker emptyBroker ordersOptions).broker ordersOptions).err
      = none ∧
    (New modelBroker (New modelBroker emptyBroker ordersOptions).broker ordersOptions).broker
      = (New modelBroker emptyBroker ordersOptions).broker) ∧
    ((New modelBroker emptyBroker distinctNameOptions).broker.consumers.map
      (fun p => (p.1, p.2.Durable))
        = [("ORDERS", "orders-worker"), ("ORDERS", "orders-consumer")]) ∧
    (New modelBroker (New modelBroker emptyBroker distinctNameOptions).broker
      distinctNameOptions).broker = (New modelBroker emptyBroker distinctNameOptions).broker :=
  ⟨ordersOptions_valid, by decide, rfl, rfl, rfl,
    New_provisioning_idempotent emptyBroker ordersOptions ordersOptions_valid (by decide) rfl,
    rfl,
    (New_provisioning_idempotent emptyBroker distinctNameOptions distinctNameOptions_valid
      (by decide) rfl).2.2⟩

/-! ### The dispatch loop -/

theorem after_trace {σ : Type} (evs : List Event) (r : LoopResult σ) :
    (r.after evs).trace = evs ++ r.trace := rfl

theorem after_status {σ : Type} (evs : List Event) (r : LoopResult σ) :
    (r.after evs).status = r.status := rfl

theorem outcomes_append {σ : Type} (h : Handler σ) (s : σ) (a b : List Msg) :
    outcomes h s (a ++ b) = outcomes h s a ++ outcomes h (stateAfter h s a) b := by
  induction a generalizing s with
  | nil => rfl
  | cons m rest ih => simp [outcomes, stateAfter, ih]

theorem stateAfter_append {σ : Type} (h : Handler σ) (s : σ) (a b : List Msg) :
    stateAfter h s (a ++ b) = stateAfter h (stateAfter h s a) b := by
  induction a generalizing s with
  | nil => rfl
  | cons m rest ih => simp [stateAfter, ih]

theorem outcomes_map_fst {σ : Type} (h : Handler σ) (s : σ) (msgs : List Msg) :
    (outcomes h s msgs).map Prod.fst = msgs := by
  induction msgs generalizing s with
  | nil => rfl
  | cons m rest ih => simp [outcomes, ih]

/-- One batch: every message goes to the handler once, in order, and is settled
right after, and no fetch happens in between. -/
theorem dispatchBatch_spec {σ : Type} (h : Handler σ) (s : σ) (msgs : List Msg) :
    handledMsgs (dispatchBatch h s msgs).1 = msgs ∧
    dispatchEvents (dispatchBatch h s msgs).1 = (outcomes h s msgs).flatMap settle ∧
    countFetch (dispatchBatch h s msgs).1 = 0 ∧
    (dispatchBatch h s msgs).2 = stateAfter h s msgs := by
  induction msgs generalizing s with
  | nil => exact ⟨rfl, rfl, rfl, rfl⟩
  | cons m rest ih =>
    obtain ⟨i1, i2, i3, i4⟩ := ih (h s m).2
    rcases hh : h s m with ⟨_ | e, s1⟩
    · rw [hh] at i1 i2 i3 i4
      simp only [handledMsgs, dispatchEvents, countFetch] at i1 i2 i3 ⊢
      simp [dispatchBatch, hh, outcomes, stateAfter, settle, i1, i2, i3, i4]
    · rw [hh] at i1 i2 i3 i4
      simp only [handledMsgs, dispatchEvents, countFetch] at i1 i2 i3 ⊢
      simp [dispatchBatch, hh, outcomes, stateAfter, settle, i1, i2, i3, i4]

theorem liveIterations_cons_live (it : Iteration) (rest : List Iteration)
    (h : it.ctxDone = false) : liveIterations (it :: rest) = it :: liveIterations rest := by
  simp [liveIterations, List.takeWhile_cons, h]

theorem fetchedMsgs_cons_live (it : Iteration) (rest : List Iteration)
    (h : it.ctxDone = false) : fetchedMsgs (it :: rest) = it.batch ++ fetchedMsgs rest := by
  simp [fetchedMsgs, liveIterations_cons_live it rest h]

theorem fetchedMsgs_cons_done (it : Iteration) (rest : List Iteration)
    (h : it.ctxDone = true) :
    liveIterations (it :: rest) = [] ∧ fetchedMsgs (it :: rest) = [] := by
  simp [fetchedMsgs, liveIterations, List.takeWhile_cons, h]

/-- A loop with a handler, against any answers of the outside. -/
theorem processMessages_spec {σ : Type} (w : Worker σ) (h : Handler σ)
    (hw : w.handler = some h) (workerID : Int) (script : List Iteration) (s : σ) :
    handledMsgs (processMessages w workerID s script).trace = fetchedMsgs script ∧
    dispatchEvents (processMessages w workerID s script).trace
      = (outcomes h s (fetchedMsgs script)).flatMap settle ∧
    countFetch (processMessages w workerID s script).trace = (liveIterations script).length ∧
    (processMessages w workerID s script).status
      = (if script.any (fun it => it.ctxDone) then LoopStatus.Stopped
          else LoopStatus.Fetching) := by
  induction script generalizing s with
  | nil => exact ⟨rfl, rfl, rfl, rfl⟩
  | cons it rest ih =>
    by_cases hd : it.ctxDone = true
    · obtain ⟨l1, l2⟩ := fetchedMsgs_cons_done it rest hd
      rw [l1, l2]
      simp [processMessages, hd, handledMsgs, dispatchEvents, countFetch, outcomes]
    · have hd2 : it.ctxDone = false := by simpa using hd
      rw [fetchedMsgs_cons_live it rest hd2, liveIterations_cons_live it rest hd2]
      rcases hf : it.fetch with err | msgs
      · obtain ⟨i1, i2, i3, i4⟩ := ih s
        have hb : it.batch = [] := by simp [Iteration.batch, hf]
        simp only [handledMsgs, dispatchEvents, countFetch] at i1 i2 i3 ⊢
        by_cases ht : errorsIs err natsErrTimeout = true
        · simp [processMessages, hd2, hf, ht, hb, after_trace, after_status, i1, i2, i3, i4]
        · simp [processMessages, hd2, hf, ht, hb, after_trace, after_status, i1, i2, i3, i4]
      · obtain ⟨i1, i2, i3, i4⟩ := ih (dispatchBatch h s msgs).2
        obtain ⟨d1, d2, d3, d4⟩ := dispatchBatch_spec h s msgs
        have hb : it.batch = msgs := by simp [Iteration.batch, hf]
        rw [d4] at i1 i2 i3 i4
        simp only [handledMsgs, dispatchEvents, countFetch] at i1 i2 i3 d1 d2 d3 ⊢
        simp [processMessages, hd2, hf, hw, hb, after_trace, after_status, i1, i2, i3, i4,
          d1, d2, d3, d4, outcomes_append, List.filterMap_append, List.filter_append,
          List.countP_append]

theorem countAck_dispatchEvents (tr : List Event) :
    countAck (dispatchEvents tr) = countAck tr ∧ countNak (dispatchEvents tr) = countNak tr := by
  induction tr with
  | nil => exact ⟨rfl, rfl⟩
  | cons e rest ih =>
    obtain ⟨i1, i2⟩ := ih
    simp only [countAck, countNak, dispatchEvents] at i1 i2 ⊢
    cases e <;> simp [List.filter_cons, List.countP_cons, i1, i2]

theorem count_dispatchEvents (m : Msg) (tr : List Event) :
    acksOf m (dispatchEvents tr) = acksOf m tr ∧ naksOf m (dispatchEvents tr) = naksOf m tr := by
  induction tr with
  | nil => exact ⟨rfl, rfl⟩
  | cons e rest ih =>
    obtain ⟨i1, i2⟩ := ih
    simp only [acksOf, naksOf, dispatchEvents] at i1 i2 ⊢
    cases e <;> simp [List.filter_cons, List.count_cons, i1, i2]

theorem counts_settle (outs : List (Msg × Option Error)) :
    countAck (outs.flatMap settle) = (outs.filter (fun p => p.2.isNone)).length ∧
    countNak (outs.flatMap settle) = (outs.filter (fun p => p.2.isSome)).length := by
  induction outs with
  | nil => exact ⟨rfl, rfl⟩
  | cons p rest ih =>
    obtain ⟨i1, i2⟩ := ih
    obtain ⟨m, r⟩ := p
    simp only [countAck, countNak] at i1 i2 ⊢
    cases r <;>
      simp [settle, List.flatMap_cons, List.countP_append, List.countP_cons, List.filter_cons,
        i1, i2]

/-- In the settled trace a message has one Ack for each time the handler accepted
it and one Nak for each time the handler refused it. -/
theorem count_settle (m : Msg) (outs : List (Msg × Option Error)) :
    acksOf m (outs.flatMap settle)
      = (outs.filter (fun p => decide (p.1 = m) && p.2.isNone)).length ∧
    naksOf m (outs.flatMap settle)
      = (outs.filter (fun p => decide (p.1 = m) && p.2.isSome)).length := by
  induction outs with
  | nil => exact ⟨rfl, rfl⟩
  | cons p rest ih =>
    obtain ⟨i1, i2⟩ := ih
    obtain ⟨m2, r⟩ := p
    simp only [acksOf, naksOf] at i1 i2 ⊢
    by_cases hm : m2 = m
    · cases r <;>
        simp [settle, List.flatMap_cons, List.count_append, List.count_cons, List.filter_cons,
          i1, i2, hm]
    · cases r <;>
        simp [settle, List.flatMap_cons, List.count_append, List.count_cons, List.filter_cons,
          i1, i2, hm]

theorem filter_isNone_add_isSome (outs : List (Msg × Option Error)) :
    (outs.filter (fun p => p.2.isNone)).length + (outs.filter (fun p => p.2.isSome)).length
      = outs.length := by
  induction outs with
  | nil => rfl
  | cons p rest ih =>
    obtain ⟨m, r⟩ := p
    cases r <;> simp [List.filter_cons] <;> omega

theorem outcomes_length {σ : Type} (h : Handler σ) (s : σ) (msgs : List Msg) :
    (outcomes h s msgs).length = msgs.length := by
  rw [← List.length_map (outcomes h s msgs) Prod.fst, outcomes_map_fst]

/-- C2: for a worker `New` returned, with the configured handler `h`, one dispatch
loop run against any answers of the outside, from any handler state: the messages
passed to the handler are exactly the messages fetched, each once, in fetch order;
each is followed at once by its one terminal action, an Ack when the handler
returned no error and a Nak when it returned one, so a message has as many Acks as
times the handler accepted it and as many Naks as times the handler refused it, and
Acks and Naks together are as many as the messages fetched; every turn the loop gets
to issues its fetch, whatever the handler returned before; and the loop is stopped
only when the context was cancelled, otherwise it is back at fetching. -/
theorem processMessages_settles_each_message {σ β : Type} (B : Broker β) (nc : β)
    (opts : List (WorkerOption σ)) (w : Worker σ) (hw : (New B nc opts).worker = some w)
    (h : Handler σ) (hh : (applyOptions opts).handler = some h)
    (workerID : Int) (s : σ) (script : List Iteration) :
    handledMsgs (processMessages w workerID s script).trace = fetchedMsgs script ∧
    dispatchEvents (processMessages w workerID s script).trace
      = (outcomes h s (fetchedMsgs script)).flatMap settle ∧
    (∀ m : Msg,
      acksOf m (processMessages w workerID s script).trace
        = ((outcomes h s (fetchedMsgs script)).filter
            (fun p => decide (p.1 = m) && p.2.isNone)).length ∧
      naksOf m (processMessages w workerID s script).trace
        = ((outcomes h s (fetchedMsgs script)).filter
            (fun p => decide (p.1 = m) && p.2.isSome)).length) ∧
    countAck (processMessages w workerID s script).trace
      = ((outcomes h s (fetchedMsgs script)).filter (fun p => p.2.isNone)).length ∧
    countNak (processMessages w workerID s script).trace
      = ((outcomes h s (fetchedMsgs script)).filter (fun p => p.2.isSome)).length ∧
    countAck (processMessages w workerID s script).trace
      + countNak (processMessages w workerID s script).trace = (fetchedMsgs script).length ∧
    countFetch (processMessages w workerID s script).trace = (liveIterations script).length ∧
    (processMessages w workerID s script).status
      = (if script.any (fun it => it.ctxDone) then LoopStatus.Stopped
          else LoopStatus.Fetching) := by
  have hwh : w.handler = some h := by
    rw [(New_success B nc opts w hw).2.2.2.1, hh]
  obtain ⟨p1, p2, p3, p4⟩ := processMessages_spec w h hwh workerID script s
  have ca := countAck_dispatchEvents (processMessages w workerID s script).trace
  have cs := counts_settle (outcomes h s (fetchedMsgs script))
  rw [p2] at ca
  have hA := ca.1.symm.trans cs.1
  have hN := ca.2.symm.trans cs.2
  refine ⟨p1, p2, ?_, hA, hN, ?_, p3, p4⟩
  · intro m
    have cm := count_dispatchEvents m (processMessages w workerID s script).trace
    have cq := count_settle m (outcomes h s (fetchedMsgs script))
    rw [p2] at cm
    exact ⟨cm.1.symm.trans cq.1, cm.2.symm.trans cq.2⟩
  · rw [hA, hN, filter_isNone_add_isSome, outcomes_length]

/-- A batch of ten messages where the fifth handler call returns an error: nine
messages acknowledged, one negatively acknowledged, the loop back at fetching. -/
theorem processMessages_settles_each_message_witness :
    (New acceptAll () countingOptions).worker = some countingWorker ∧
    (applyOptions countingOptions).handler = some failFifth ∧
    countAck (processMessages countingWorker 0 0 oneBatch).trace = 9 ∧
    countNak (processMessages countingWorker 0 0 oneBatch).trace = 1 ∧
    naksOf ⟨"orders.5", []⟩ (processMessages countingWorker 0 0 oneBatch).trace = 1 ∧
    (processMessages countingWorker 0 0 oneBatch).status = LoopStatus.Fetching :=
  ⟨rfl, rfl,
    (processMessages_settles_each_message acceptAll () countingOptions countingWorker rfl
      failFifth rfl 0 0 oneBatch).2.2.2.1,
    (processMessages_settles_each_message acceptAll () countingOptions countingWorker rfl
      failFifth rfl 0 0 oneBatch).2.2.2.2.1,
    ((processMessages_settles_each_message acceptAll () countingOptions countingWorker rfl
      failFifth rfl 0 0 oneBatch).2.2.1 ⟨"orders.5", []⟩).2,
    (processMessages_settles_each_message acceptAll () countingOptions countingWorker rfl
      failFifth rfl 0 0 oneBatch).2.2.2.2.2.2.2⟩

/-! ### The dispatch loop: fetch errors and cancellation -/

theorem dispatchBatch_loopEvents {σ : Type} (h : Handler σ) (s : σ) (msgs : List Msg) :
    loopEvents (dispatchBatch h s msgs).1 = [] := by
  induction msgs generalizing s with
  | nil => rfl
  | cons m rest ih =>
    have i := ih (h s m).2
    rcases hh : h s m with ⟨_ | e, s1⟩
    · rw [hh] at i
      simp only [loopEvents] at i ⊢
      simp [dispatchBatch, hh, i]
    · rw [hh] at i
      simp only [loopEvents] at i ⊢
      simp [dispatchBatch, hh, i]

/-- The fetches, sleeps and fetch-error logs of a run are those of the turns the
loop gets to, turn by turn. -/
theorem processMessages_loopEvents {σ : Type} (w : Worker σ) (h : Handler σ)
    (hw : w.handler = some h) (workerID : Int) (script : List Iteration) (s : σ) :
    loopEvents (processMessages w workerID s script).trace
      = (liveIterations script).flatMap fetchEvents := by
  induction script generalizing s with
  | nil => rfl
  | cons it rest ih =>
    by_cases hd : it.ctxDone = true
    · rw [(fetchedMsgs_cons_done it rest hd).1]
      simp [processMessages, hd, loopEvents]
    · have hd2 : it.ctxDone = false := by simpa using hd
      rw [liveIterations_cons_live it rest hd2]
      rcases hf : it.fetch with err | msgs
      · have i := ih s
        simp only [loopEvents] at i ⊢
        by_cases ht : errorsIs err natsErrTimeout = true
        · simp [processMessages, hd2, hf, ht, after_trace, fetchEvents, i]
        · simp [processMessages, hd2, hf, ht, after_trace, fetchEvents, i]
      · have i := ih (dispatchBatch h s msgs).2
        have d := dispatchBatch_loopEvents h s msgs
        simp only [loopEvents] at i d ⊢
        simp [processMessages, hd2, hf, hw, after_trace, fetchEvents, i, d,
          List.filter_append]

theorem counts_fetchEvents (its : List Iteration) :
    countSleep (its.flatMap fetchEvents)
      = (its.filter (fun it => match it.fetch with
          | Except.error err => !errorsIs err natsErrTimeout
          | Except.ok _ => false)).length ∧
    countFetchErrorLog (its.flatMap fetchEvents)
      = (its.filter (fun it => match it.fetch with
          | Except.error err => !errorsIs err natsErrTimeout
          | Except.ok _ => false)).length ∧
    (∀ d, Event.Sleep d ∈ its.flatMap fetchEvents → d = Second) := by
  induction its with
  | nil =>
    refine ⟨rfl, rfl, ?_⟩
    intro d hd
    simp at hd
  | cons it rest ih =>
    obtain ⟨i1, i2, i3⟩ := ih
    simp only [countSleep, countFetchErrorLog] at i1 i2 ⊢
    rcases hf : it.fetch with err | msgs
    · by_cases ht : errorsIs err natsErrTimeout = true
      · refine ⟨?_, ?_, ?_⟩
        · simp [List.flatMap_cons, fetchEvents, hf, ht, List.countP_append, List.countP_cons,
            List.filter_cons, i1]
        · simp [List.flatMap_cons, fetchEvents, hf, ht, List.countP_append, List.countP_cons,
            List.filter_cons, i2]
        · intro d hd
          simp only [List.flatMap_cons, fetchEvents, hf, ht, if_true, List.mem_append,
            List.mem_singleton] at hd
          rcases hd with hd | hd
          · exact absurd hd (by simp)
          · exact i3 d hd
      · refine ⟨?_, ?_, ?_⟩
        · simp [List.flatMap_cons, fetchEvents, hf, ht, List.countP_append, List.countP_cons,
            List.filter_cons, i1]
        · simp [List.flatMap_cons, fetchEvents, hf, ht, List.countP_append, List.countP_cons,
            List.filter_cons, i2]
        · intro d hd
          simp only [List.flatMap_cons, fetchEvents, hf, ht, List.mem_append] at hd
          rcases hd with hd | hd
          · simp at hd
            exact hd
          · exact i3 d hd
    · refine ⟨?_, ?_, ?_⟩
      · simp [List.flatMap_cons, fetchEvents, hf, List.countP_append, List.countP_cons,
          List.filter_cons, i1]
      · simp [List.flatMap_cons, fetchEvents, hf, List.countP_append, List.countP_cons,
          List.filter_cons, i2]
      · intro d hd
        simp only [List.flatMap_cons, fetchEvents, hf, List.mem_append,
          List.mem_singleton] at hd
        rcases hd with hd | hd
        · exact absurd hd (by simp)
        · exact i3 d hd

theorem counts_loopEvents (tr : List Event) :
    countSleep (loopEvents tr) = countSleep tr ∧
    countFetchErrorLog (loopEvents tr) = countFetchErrorLog tr ∧
    countFetch (loopEvents tr) = countFetch tr ∧
    (∀ d, Event.Sleep d ∈ tr → Event.Sleep d ∈ loopEvents tr) := by
  induction tr with
  | nil => exact ⟨rfl, rfl, rfl, fun _ h => h⟩
  | cons e rest ih =>
    obtain ⟨i1, i2, i3, i4⟩ := ih
    simp only [countSleep, countFetchErrorLog, countFetch, loopEvents] at i1 i2 i3 i4 ⊢
    refine ⟨?_, ?_, ?_, ?_⟩
    · cases e <;> simp [List.filter_cons, List.countP_cons, i1]
      split <;> simp [i1]
    · cases e <;> simp [List.filter_cons, List.countP_cons, i2]
      split <;> simp [i2, *]
    · cases e <;> simp [List.filter_cons, List.countP_cons, i3]
      split <;> simp [i3]
    · intro d hd
      simp only [List.mem_cons] at hd
      rcases hd with hd | hd
      · subst hd
        simp
      · have := i4 d hd
        simp only [List.mem_filter] at this ⊢
        exact ⟨List.mem_cons_of_mem _ this.1, this.2⟩

/-- A run of failed fetches only, for any worker: the trace, turn by turn. -/
theorem processMessages_failedFetches {σ : Type} (w : Worker σ) (workerID : Int) (s : σ)
    (errs : List Error) :
    processMessages w workerID s (errs.map failedFetch)
      = ⟨LoopStatus.Fetching, (errs.map failedFetch).flatMap fetchEvents, s⟩ := by
  induction errs with
  | nil => rfl
  | cons e rest ih =>
    by_cases ht : errorsIs e natsErrTimeout = true
    · simp [processMessages, failedFetch, ht, fetchEvents, LoopResult.after] at ih ⊢
      rw [ih]
      exact ⟨rfl, rfl, rfl⟩
    · simp [processMessages, failedFetch, ht, fetchEvents, LoopResult.after] at ih ⊢
      rw [ih]
      exact ⟨rfl, rfl, rfl⟩

/-- C14: in a dispatch loop with a handler, against any answers of the outside: the
fetches, sleeps and fetch-error logs of the run are, turn by turn, those of the
turns the loop gets to, where a fetch that fails with the timeout gives the fetch
alone, so that the next event is the next fetch, and a fetch that fails with another
error gives the fetch, one error log and one sleep of one second; so sleeps and
fetch-error logs are each as many as the failed fetches that are not timeouts; every
turn the loop gets to fetches; the loop is stopped only when the context was
cancelled; and a run of failed fetches alone has exactly those events, for any
worker, and is back at fetching. -/
theorem processMessages_fetch_errors {σ : Type} (w : Worker σ) (h : Handler σ)
    (hw : w.handler = some h) (workerID : Int) (s : σ) (script : List Iteration)
    (errs : List Error) :
    (∀ err, fetchEvents (failedFetch err) =
      if errorsIs err natsErrTimeout then [Event.Fetch 10 5000000000]
      else [Event.Fetch 10 5000000000, Event.LogError "error fetching messages" err,
        Event.Sleep 1000000000]) ∧
    loopEvents (processMessages w workerID s script).trace
      = (liveIterations script).flatMap fetchEvents ∧
    countSleep (processMessages w workerID s script).trace = (backoffTurns script).length ∧
    countFetchErrorLog (processMessages w workerID s script).trace
      = (backoffTurns script).length ∧
    (∀ d, Event.Sleep d ∈ (processMessages w workerID s script).trace → d = 1000000000) ∧
    countFetch (processMessages w workerID s script).trace = (liveIterations script).length ∧
    (processMessages w workerID s script).status
      = (if script.any (fun it => it.ctxDone) then LoopStatus.Stopped
          else LoopStatus.Fetching) ∧
    processMessages w workerID s (errs.map failedFetch)
      = ⟨LoopStatus.Fetching, (errs.map failedFetch).flatMap fetchEvents, s⟩ := by
  have hl := processMessages_loopEvents w h hw workerID script s
  obtain ⟨c1, c2, _, c4⟩ := counts_loopEvents (processMessages w workerID s script).trace
  obtain ⟨f1, f2, f3⟩ := counts_fetchEvents (liveIterations script)
  obtain ⟨_, _, p3, p4⟩ := processMessages_spec w h hw workerID script s
  rw [hl] at c1 c2 c4
  refine ⟨?_, hl, c1.symm.trans f1, c2.symm.trans f2, ?_, p3, p4,
    processMessages_failedFetches w workerID s errs⟩
  · intro err
    by_cases ht : errorsIs err natsErrTimeout = true <;>
      simp [fetchEvents, failedFetch, ht, Second]
  · intro d hd
    exact f3 d (c4 d hd)

/-- Three timeouts in a row: three fetches one after the other, no sleep, no error
log, the loop back at fetching. -/
theorem processMessages_fetch_errors_witness :
    countingWorker.handler = some failFifth ∧
    processMessages countingWorker 0 0 threeTimeouts =
      ⟨LoopStatus.Fetching,
        [Event.Fetch 10 5000000000, Event.Fetch 10 5000000000, Event.Fetch 10 5000000000], 0⟩ ∧
    countSleep (processMessages countingWorker 0 0 threeTimeouts).trace = 0 ∧
    countFetchErrorLog (processMessages countingWorker 0 0 threeTimeouts).trace = 0 :=
  ⟨rfl,
    (processMessages_fetch_errors countingWorker failFifth rfl 0 0 threeTimeouts
      [natsErrTimeout, natsErrTimeout, natsErrTimeout]).2.2.2.2.2.2.2,
    (processMessages_fetch_errors countingWorker failFifth rfl 0 0 threeTimeouts
      [natsErrTimeout, natsErrTimeout, natsErrTimeout]).2.2.1,
    (processMessages_fetch_errors countingWorker failFifth rfl 0 0 threeTimeouts
      [natsErrTimeout, natsErrTimeout, natsErrTimeout]).2.2.2.1⟩

/-- C15, as stated, fails: when the cancellation interrupts a fetch so that the fetch
returns the error of the context, the loop logs the error and sleeps one second
before it looks at the context and stops. -/
theorem processMessages_backs_off_on_cancelled_fetch :
    processMessages countingWorker 0 0 cancelledDuringFetch =
      ⟨LoopStatus.Stopped,
        [Event.Fetch 10 5000000000, Event.LogError "error fetching messages" contextCanceled,
          Event.Sleep 1000000000], 0⟩ ∧
    countSleep (processMessages countingWorker 0 0 cancelledDuringFetch).trace = 1 ∧
    countFetchErrorLog (processMessages countingWorker 0 0 cancelledDuringFetch).trace = 1 :=
  ⟨rfl, rfl, rfl⟩

/-- C15, amended: in a dispatch loop with a handler, once the context is cancelled
the loop stops at its next look at the context and fetches no more. A turn that
finds the context cancelled returns without a fetch, also right after a timeout.
When the cancellation comes during a fetch, the result of that fetch is handled as
any other, a failure that is not the timeout with its error log and its sleep of one
second, and the loop returns at the next turn. In every run the fetches are those of
the turns before the cancellation, and the loop is stopped exactly when some turn
found the context cancelled. -/
theorem processMessages_cancellation {σ : Type} (w : Worker σ) (h : Handler σ)
    (hw : w.handler = some h) (workerID : Int) (s : σ) (script : List Iteration) :
    (∀ it rest, it.ctxDone = true →
      processMessages w workerID s (it :: rest) = ⟨LoopStatus.Stopped, [], s⟩) ∧
    (∀ err it rest, errorsIs err natsErrTimeout = true → it.ctxDone = true →
      processMessages w workerID s (failedFetch err :: it :: rest)
        = ⟨LoopStatus.Stopped, [Event.Fetch 10 5000000000], s⟩) ∧
    (∀ err it rest, errorsIs err natsErrTimeout = false → it.ctxDone = true →
      processMessages w workerID s (failedFetch err :: it :: rest)
        = ⟨LoopStatus.Stopped,
            [Event.Fetch 10 5000000000, Event.LogError "error fetching messages" err,
              Event.Sleep 1000000000], s⟩) ∧
    loopEvents (processMessages w workerID s script).trace
      = (liveIterations script).flatMap fetchEvents ∧
    countFetch (processMessages w workerID s script).trace = (liveIterations script).length ∧
    ((processMessages w workerID s script).status = LoopStatus.Stopped ↔
      ∃ it ∈ script, it.ctxDone = true) := by
  obtain ⟨_, _, p3, p4⟩ := processMessages_spec w h hw workerID script s
  refine ⟨?_, ?_, ?_, processMessages_loopEvents w h hw workerID script s, p3, ?_⟩
  · intro it rest hd
    simp [processMessages, hd]
  · intro err it rest ht hd
    simp [processMessages, failedFetch, ht, hd, LoopResult.after, Second]
  · intro err it rest ht hd
    simp [processMessages, failedFetch, ht, hd, LoopResult.after, Second]
  · rw [p4]
    by_cases ha : script.any (fun it => it.ctxDone) = true
    · simp only [ha, if_true, true_iff]
      simpa [List.any_eq_true] using ha
    · simp only [ha]
      simp only [List.any_eq_true, not_exists, not_and] at ha
      constructor
      · intro hc
        exact absurd hc (by decide)
      · rintro ⟨it, hi, hd⟩
        exact absurd hd (ha it hi)

/-- A fetch that times out and then a cancelled context: the loop has made the one
fetch and is stopped, with no sleep and no error log. -/
theorem processMessages_cancellation_witness :
    countingWorker.handler = some failFifth ∧
    processMessages countingWorker 0 0
        [failedFetch natsErrTimeout, ⟨true, Except.ok []⟩, failedFetch natsErrTimeout]
      = ⟨LoopStatus.Stopped, [Event.Fetch 10 5000000000], 0⟩ :=
  ⟨rfl,
    (processMessages_cancellation countingWorker failFifth rfl 0 0 []).2.1
      natsErrTimeout ⟨true, Except.ok []⟩ [failedFetch natsErrTimeout] rfl rfl⟩

/-! ### `Shutdown` -/

theorem ctxOf_no_signal (turns : List RunTurn) (h : ∀ t ∈ turns, t.signal = false) :
    (ctxOf false turns).any (fun it => it.ctxDone) = false := by
  induction turns with
  | nil => rfl
  | cons t rest ih =>
    have ht : t.signal = false := h t (List.mem_cons_self t rest)
    have ir := ih (fun t2 h2 => h t2 (List.mem_cons_of_mem t h2))
    simp [ctxOf, ht, ir]

/-- Without a signal a loop with a handler is never stopped, whatever `Shutdown`
and the fetches did. -/
theorem runLoop_no_signal {σ β : Type} (B : Broker β) (w : Worker σ) (h : Handler σ)
    (hw : w.handler = some h) (workerID : Int) (s : σ) (b : β) (turns : List RunTurn)
    (hs : ∀ t ∈ turns, t.signal = false) :
    (runLoop B w workerID s b turns).1.status = LoopStatus.Fetching := by
  have p := (processMessages_spec w h hw workerID (ctxOf false turns) s).2.2.2
  rw [ctxOf_no_signal turns hs] at p
  simpa [runLoop] using p

/-- C11: the code at the failing input. A worker from `New` runs, `Shutdown` is
called and drains the subscription, the fetch on the drained subscription is
refused, and no signal is delivered: the loop logs the error and sleeps, and
whatever the later fetches return, the loop is not stopped, it is back at
fetching. -/
theorem runLoop_after_Shutdown_keeps_fetching (fetches : List (Except Error (List Msg))) :
    (New acceptAll () countingOptions).worker = some countingWorker ∧
    (runLoop drainBroker countingWorker 0 0 [] (shutdownThenFetches fetches)).2
      = ([⟨"orders", "orders-worker", "ORDERS"⟩], [⟨"orders", "orders-worker", "ORDERS"⟩]) ∧
    (runLoop drainBroker countingWorker 0 0 [] (shutdownThenFetches fetches)).1.status
      = LoopStatus.Fetching ∧
    (runLoop drainBroker countingWorker 0 0 [] (shutdownThenFetches fetches)).1.trace.take 3
      = [Event.Fetch 10 5000000000,
          Event.LogError "error fetching messages" natsErrBadSubscription,
          Event.Sleep 1000000000] := by
  have hs : ∀ t ∈ shutdownThenFetches fetches, t.signal = false := by
    intro t ht
    simp only [shutdownThenFetches, List.mem_cons, List.mem_map] at ht
    rcases ht with ht | ⟨f, _, ht⟩
    · rw [ht]
    · rw [← ht]
  have hd : shutdownsOf drainBroker countingWorker [] (shutdownThenFetches fetches)
      = ([⟨"orders", "orders-worker", "ORDERS"⟩], [⟨"orders", "orders-worker", "ORDERS"⟩]) := by
    have hrest : ∀ (b : List Subscription) (fs : List (Except Error (List Msg))),
        shutdownsOf drainBroker countingWorker b
          (fs.map (fun f => (⟨false, false, f⟩ : RunTurn))) = (b, []) := by
      intro b fs
      induction fs with
      | nil => rfl
      | cons f rest ih => simpa [shutdownsOf] using ih
    simp only [shutdownThenFetches, shutdownsOf, if_true, hrest]
    rfl
  refine ⟨rfl, hd, runLoop_no_signal drainBroker countingWorker failFifth rfl 0 0 []
    (shutdownThenFetches fetches) hs, ?_⟩
  simp [runLoop, shutdownThenFetches, ctxOf, processMessages, errorsIs, LoopResult.after,
    Second, List.take_succ_cons]

/-- C12, as stated, fails: the second call of `Shutdown` is not a no-op, it makes a
further drain request on the subscription, as the first call did. -/
theorem Shutdown_second_call_drains_again :
    (Shutdown drainBroker ordersWorker []).drains
      = [⟨"orders", "orders-worker", "ORDERS"⟩] ∧
    (Shutdown drainBroker (Shutdown drainBroker ordersWorker []).worker
        (Shutdown drainBroker ordersWorker []).broker).drains
      = [⟨"orders", "orders-worker", "ORDERS"⟩] ∧
    (Shutdown drainBroker (Shutdown drainBroker ordersWorker []).worker
        (Shutdown drainBroker ordersWorker []).broker).drains ≠ [] :=
  ⟨rfl, rfl, by decide⟩

/-- C12, amended: over a broker whose drain, repeated on a subscription, leaves the
broker as the first drain left it, calling `Shutdown` twice leaves the worker and the
broker in the same state as calling it once. `Shutdown` never changes the worker;
on a worker with a subscription every call, the second included, makes one drain
request on it; on a worker with no subscription `Shutdown` does nothing. -/
theorem Shutdown_twice_same_state {σ β : Type} (B : Broker β) (w : Worker σ) (b : β)
    (hD : ∀ sub b0, (B.Drain sub (B.Drain sub b0).2).2 = (B.Drain sub b0).2) :
    (Shutdown B w b).worker = w ∧
    (Shutdown B (Shutdown B w b).worker (Shutdown B w b).broker).worker
      = (Shutdown B w b).worker ∧
    (Shutdown B (Shutdown B w b).worker (Shutdown B w b).broker).broker
      = (Shutdown B w b).broker ∧
    (∀ sub, w.sub = some sub →
      (Shutdown B w b).drains = [sub] ∧ (Shutdown B w b).broker = (B.Drain sub b).2 ∧
      (Shutdown B (Shutdown B w b).worker (Shutdown B w b).broker).drains = [sub]) ∧
    (w.sub = none → Shutdown B w b = ⟨w, b, []⟩) := by
  cases hsub : w.sub with
  | none =>
    have h1 : Shutdown B w b = ⟨w, b, []⟩ := by simp [Shutdown, hsub]
    refine ⟨?_, ?_, ?_, ?_, fun _ => h1⟩
    · rw [h1]
    · rw [h1]
      show (Shutdown B w b).worker = w
      rw [h1]
    · rw [h1]
      show (Shutdown B w b).broker = b
      rw [h1]
    · intro sub hs
      exact absurd hs (by simp)
  | some sub0 =>
    have h1 : Shutdown B w b = ⟨w, (B.Drain sub0 b).2, [sub0]⟩ := by simp [Shutdown, hsub]
    have h2 : Shutdown B w (B.Drain sub0 b).2
        = ⟨w, (B.Drain sub0 (B.Drain sub0 b).2).2, [sub0]⟩ := by simp [Shutdown, hsub]
    refine ⟨?_, ?_, ?_, ?_, fun h => absurd h (by simp)⟩
    · rw [h1]
    · rw [h1]
      show (Shutdown B w (B.Drain sub0 b).2).worker = w
      rw [h2]
    · rw [h1]
      show (Shutdown B w (B.Drain sub0 b).2).broker = (B.Drain sub0 b).2
      rw [h2]
      exact hD sub0 b
    · intro sub hs
      simp only [Option.some.injEq] at hs
      subst hs
      rw [h1]
      refine ⟨rfl, rfl, ?_⟩
      show (Shutdown B w (B.Drain sub0 b).2).drains = [sub0]
      rw [h2]

theorem drainBroker_Drain_idem (sub : Subscription) (b0 : List Subscription) :
    (drainBroker.Drain sub (drainBroker.Drain sub b0).2).2 = (drainBroker.Drain sub b0).2 := by
  by_cases h : sub ∈ b0
  · simp [drainBroker, h]
  · simp [drainBroker, h]

/-- On the broker that keeps the drained subscriptions, `Shutdown` twice leaves the
one subscription drained, as `Shutdown` once does, and asks for the drain twice. -/
theorem Shutdown_twice_same_state_witness :
    (∀ sub b0, (drainBroker.Drain sub (drainBroker.Drain sub b0).2).2
      = (drainBroker.Drain sub b0).2) ∧
    (Shutdown drainBroker ordersWorker []).broker = [⟨"orders", "orders-worker", "ORDERS"⟩] ∧
    (Shutdown drainBroker (Shutdown drainBroker ordersWorker []).worker
        (Shutdown drainBroker ordersWorker []).broker).broker
      = (Shutdown drainBroker ordersWorker []).broker ∧
    (Shutdown drainBroker (Shutdown drainBroker ordersWorker []).worker
        (Shutdown drainBroker ordersWorker []).broker).drains
      = [⟨"orders", "orders-worker", "ORDERS"⟩] :=
  ⟨drainBroker_Drain_idem, rfl,
    (Shutdown_twice_same_state drainBroker ordersWorker [] drainBroker_Drain_idem).2.2.1,
    ((Shutdown_twice_same_state drainBroker ordersWorker [] drainBroker_Drain_idem).2.2.2.1
      ⟨"orders", "orders-worker", "ORDERS"⟩ rfl).2.2⟩

end worker

namespace auth0

/-! ### The login handler -/

theorem encodeRawURL_length (src : List UInt8) :
    (encodeRawURL src).length = (4 * src.length + 2) / 3 := by
  induction src using encodeRawURL.induct with
  | case1 => rfl
  | case2 a => simp [encodeRawURL]
  | case3 a b => simp [encodeRawURL]
  | case4 a b c rest ih =>
    simp only [encodeRawURL, List.length_cons, ih]
    omega

theorem readInto_length (b bytes : List UInt8) : (readInto b bytes).length = b.length := by
  simp only [readInto, List.length_take, List.length_append, List.length_drop]
  omega

/-- A successful `generateRandomState` returns the encoding of a buffer of 32 bytes,
a string of 43 characters. -/
theorem generateRandomState_ok (bytes : List UInt8) :
    generateRandomState (Except.ok bytes)
      = Except.ok (EncodeToString (readInto (List.replicate 32 0) bytes)) ∧
    (EncodeToString (readInto (List.replicate 32 0) bytes)).length = 43 := by
  refine ⟨rfl, ?_⟩
  simp only [EncodeToString, String.length_mk, encodeRawURL_length, readInto_length,
    List.length_replicate]

theorem schemeScan_append (first : Bool) (a b : List Char) (h : schemeScan first a = true) :
    schemeScan first (a ++ b) = true := by
  induction a generalizing first with
  | nil => simp [schemeScan] at h
  | cons c rest ih =>
    simp only [schemeScan, List.cons_append] at h ⊢
    by_cases h1 : isLetter c = true
    · rw [if_pos h1] at h ⊢
      exact ih false h
    · rw [if_neg h1] at h ⊢
      by_cases h2 : (isDigit c || decide (c = '+') || decide (c = '-') || decide (c = '.')) = true
      · rw [if_pos h2] at h ⊢
        cases first
        · simp only [Bool.false_eq_true, if_false] at h ⊢
          exact ih false h
        · simp at h
      · rw [if_neg h2] at h ⊢
        exact h

theorem hasScheme_append (a b : String) (h : hasScheme a = true) :
    hasScheme (a ++ b) = true := by
  simp only [hasScheme, String.data_append] at h ⊢
  exact schemeScan_append true a.data b.data h

theorem hexEscapeNonASCII_append (a b : String) :
    hexEscapeNonASCII (a ++ b) = hexEscapeNonASCII a ++ hexEscapeNonASCII b := by
  simp only [hexEscapeNonASCII, String.data_append, List.flatMap_append]
  rfl

theorem hexEscapeNonASCII_ascii (a : String) (h : ∀ c ∈ a.data, c.toNat < 128) :
    hexEscapeNonASCII a = a := by
  have hl : ∀ l : List Char, (∀ c ∈ l, c.toNat < 128) → l.flatMap hexEscapeChar = l := by
    intro l hl
    induction l with
    | nil => rfl
    | cons c rest ih =>
      have hc : c.toNat < 128 := hl c (List.mem_cons_self c rest)
      rw [List.flatMap_cons, ih (fun c2 h2 => hl c2 (List.mem_cons_of_mem c h2))]
      simp [hexEscapeChar, hc]
  simp only [hexEscapeNonASCII, hl a.data h]

/-- The target `AuthCodeURL` builds begins with the authorization URL. -/
theorem AuthCodeURL_begins (c : OAuth2Config) (state : String) :
    ∃ rest, AuthCodeURL c state = c.Endpoint.AuthURL ++ rest := by
  simp only [AuthCodeURL, String.append_assoc]
  exact ⟨_, rfl⟩

/-- The mock session manager returns under a key the string last put under it. -/
theorem mockSessionManager_Get_Put (key s : String) (store : List (String × SessionValue)) :
    mockSessionManager.Get key (mockSessionManager.Put key (SessionValue.string s) store)
      = SessionValue.string s := by
  simp [mockSessionManager]

set_option maxRecDepth 100000

/-- C13, as stated, fails. With the authorization URL "https://tést.example/authorize"
the `Location` header carries the URL with its bytes outside ASCII escaped, and with
the authorization URL "authorize", which has no scheme, it carries the target made
absolute from the path of the request; neither begins with the configured
authorization URL. In both cases the state is stored and the status is 302. -/
theorem HandleLogin_location_not_authorization_URL :
    (HandleLogin relativeTarget accentDeps (Except.ok testBytes) testRequest
        []).response.header.lookup "Location"
      = some ("https://t%c3%a9st.example/authorize?client_id=&response_type=code&state="
          ++ "AAECAwQFBgcICQoLDA0ODxAREhMUFRYXGBkaGxwdHv8") ∧
    (¬ ∃ rest : String,
      (HandleLogin relativeTarget accentDeps (Except.ok testBytes) testRequest
          []).response.header.lookup "Location"
        = some (accentDeps.auth.Config.Endpoint.AuthURL ++ rest)) ∧
    (HandleLogin relativeTarget pathDeps (Except.ok testBytes) testRequest
        []).response.header.lookup "Location"
      = some ("/authorize?client_id=&response_type=code&state="
          ++ "AAECAwQFBgcICQoLDA0ODxAREhMUFRYXGBkaGxwdHv8") ∧
    (¬ ∃ rest : String,
      (HandleLogin relativeTarget pathDeps (Except.ok testBytes) testRequest
          []).response.header.lookup "Location"
        = some (pathDeps.auth.Config.Endpoint.AuthURL ++ rest)) := by
  have h1 : (HandleLogin relativeTarget accentDeps (Except.ok testBytes) testRequest
      []).response.header.lookup "Location"
      = some ("https://t%c3%a9st.example/authorize?client_id=&response_type=code&state="
          ++ "AAECAwQFBgcICQoLDA0ODxAREhMUFRYXGBkaGxwdHv8") := by rfl
  have h2 : (HandleLogin relativeTarget pathDeps (Except.ok testBytes) testRequest
      []).response.header.lookup "Location"
      = some ("/authorize?client_id=&response_type=code&state="
          ++ "AAECAwQFBgcICQoLDA0ODxAREhMUFRYXGBkaGxwdHv8") := by rfl
  refine ⟨h1, ?_, h2, ?_⟩
  · rintro ⟨rest, hr⟩
    rw [h1] at hr
    have hd := congrArg (fun o : Option String => o.map (fun t => t.data.take 10)) hr
    simp only [Option.map_some', String.data_append, Option.some.injEq] at hd
    have ht : List.take 10 (accentDeps.auth.Config.Endpoint.AuthURL.data ++ rest.data)
        = List.take 10 accentDeps.auth.Config.Endpoint.AuthURL.data :=
      List.take_append_of_le_length (by decide)
    rw [ht] at hd
    exact absurd hd (by decide)
  · rintro ⟨rest, hr⟩
    rw [h2] at hr
    have hd := congrArg (fun o : Option String => o.map (fun t => t.data.take 1)) hr
    simp only [Option.map_some', String.data_append, Option.some.injEq] at hd
    have ht : List.take 1 (pathDeps.auth.Config.Endpoint.AuthURL.data ++ rest.data)
        = List.take 1 pathDeps.auth.Config.Endpoint.AuthURL.data :=
      List.take_append_of_le_length (by decide)
    rw [ht] at hd
    exact absurd hd (by decide)

/-- C13, amended: for every login request in which the random source answers with
bytes, `HandleLogin` puts under `StateKey` the state `generateRandomState` returned,
a string of 43 characters and so not empty, and answers with status 302. When the
configured authorization URL has a scheme, the `Location` header begins with that
URL as `net/http` escapes it, and so, when the URL is in ASCII as well, with the
configured authorization URL itself. -/
theorem HandleLogin_stores_state_and_redirects {γ : Type}
    (relative : Request → String → String) (d : deps γ) (r : Request) (store : γ)
    (bytes : List UInt8) :
    ∃ state : String,
      generateRandomState (Except.ok bytes) = Except.ok state ∧
      state ≠ "" ∧ state.length = 43 ∧
      (HandleLogin relative d (Except.ok bytes) r store).sessions
        = d.sessions.Put StateKey (SessionValue.string state) store ∧
      (HandleLogin relative d (Except.ok bytes) r store).response.status = 302 ∧
      (hasScheme d.auth.Config.Endpoint.AuthURL = true →
        ∃ rest : String,
          (HandleLogin relative d (Except.ok bytes) r store).response.header.lookup "Location"
            = some (hexEscapeNonASCII d.auth.Config.Endpoint.AuthURL ++ rest)) ∧
      (hasScheme d.auth.Config.Endpoint.AuthURL = true →
        (∀ c ∈ d.auth.Config.Endpoint.AuthURL.data, c.toNat < 128) →
        ∃ rest : String,
          (HandleLogin relative d (Except.ok bytes) r store).response.header.lookup "Location"
            = some (d.auth.Config.Endpoint.AuthURL ++ rest)) := by
  obtain ⟨hg, hlen⟩ := generateRandomState_ok bytes
  have hloc : hasScheme d.auth.Config.Endpoint.AuthURL = true →
      ∃ rest : String,
        (HandleLogin relative d (Except.ok bytes) r store).response.header.lookup "Location"
          = some (hexEscapeNonASCII d.auth.Config.Endpoint.AuthURL ++ rest) := by
    intro hs
    obtain ⟨rest, hrest⟩ := AuthCodeURL_begins d.auth.Config
      (EncodeToString (readInto (List.replicate 32 0) bytes))
    have hsc : hasScheme (AuthCodeURL d.auth.Config
        (EncodeToString (readInto (List.replicate 32 0) bytes))) = true := by
      rw [hrest]
      exact hasScheme_append _ _ hs
    refine ⟨hexEscapeNonASCII rest, ?_⟩
    simp only [HandleLogin, hg, Redirect, hsc, if_true]
    rw [hrest, hexEscapeNonASCII_append]
    simp [List.lookup]
  refine ⟨EncodeToString (readInto (List.replicate 32 0) bytes), hg, ?_, hlen, ?_, ?_, hloc, ?_⟩
  · intro he
    rw [he] at hlen
    exact absurd hlen (by decide)
  · simp only [HandleLogin, hg]
  · simp only [HandleLogin, hg, Redirect]
    rfl
  · intro hs ha
    obtain ⟨rest, hr⟩ := hloc hs
    rw [hexEscapeNonASCII_ascii _ ha] at hr
    exact ⟨rest, hr⟩

theorem testDeps_AuthURL_scheme :
    hasScheme testDeps.auth.Config.Endpoint.AuthURL = true := by decide

theorem testDeps_AuthURL_ascii :
    ∀ c ∈ testDeps.auth.Config.Endpoint.AuthURL.data, c.toNat < 128 := by decide

/-- The case of `TestHandleLogic`: on the request `GET /login` with an empty mock
session and the authorization URL "https://test.auth0.com/authorize", the handler
stores a state of 43 characters under "state" and redirects to a location that
begins with the authorization URL. -/
theorem HandleLogin_stores_state_and_redirects_witness :
    hasScheme testDeps.auth.Config.Endpoint.AuthURL = true ∧
    (∀ c ∈ testDeps.auth.Config.Endpoint.AuthURL.data, c.toNat < 128) ∧
    (∃ state : String,
      generateRandomState (Except.ok testBytes) = Except.ok state ∧
      state ≠ "" ∧ state.length = 43 ∧
      (HandleLogin relativeTarget testDeps (Except.ok testBytes) testRequest []).sessions
        = mockSessionManager.Put StateKey (SessionValue.string state) [] ∧
      (HandleLogin relativeTarget testDeps (Except.ok testBytes) testRequest
          []).response.status = 302 ∧
      ∃ rest : String,
        (HandleLogin relativeTarget testDeps (Except.ok testBytes) testRequest
            []).response.header.lookup "Location"
          = some ("https://test.auth0.com/authorize" ++ rest)) ∧
    mockSessionManager.Get StateKey
        (HandleLogin relativeTarget testDeps (Except.ok testBytes) testRequest []).sessions
      = SessionValue.string "AAECAwQFBgcICQoLDA0ODxAREhMUFRYXGBkaGxwdHv8" :=
  ⟨testDeps_AuthURL_scheme, testDeps_AuthURL_ascii,
    (HandleLogin_stores_state_and_redirects relativeTarget testDeps testRequest [] testBytes).elim
      (fun state h => ⟨state, h.1, h.2.1, h.2.2.1, h.2.2.2.1, h.2.2.2.2.1,
        h.2.2.2.2.2.2 testDeps_AuthURL_scheme testDeps_AuthURL_ascii⟩),
    by decide⟩

end auth0
